import Mathlib

/-!
# De Anza Marketplace: the record store behind `server.js` and the legacy `script.js`

A shallow embedding of the request handlers of `src/server.js` (Express + lowdb) and of the
`Auth` object of `src/sociaty-backend/script.js`, followed by the properties the specification
states about them.

Modelling conventions

* A request field, a query parameter or a stored field is a JavaScript value (`JSVal`): absent
  (`undefined`), `null`, a boolean, a number, a string, or an array or object.  The handlers only
  test an array or object for truthiness, compare it with `===`, and convert it to a string or a
  number, so it is represented by the string `ToString` gives for it.
* A number of a request or of the store is finite and is represented by its exact rational value
  (every binary64 number is a rational); `-0` is identified with `0`, which the program cannot
  tell apart.  `Number(s)` on a string rounds the value the string denotes to the nearest
  binary64 number, ties to even, overflowing to an infinity.  `NaN` and the infinities only arise
  as results of `Number(..)` (`JSNum`); `JSON.stringify` writes them to the store as `null`.
* Every handler starts with `db.read()` and every mutating handler ends with `db.write()`, so the
  state carried from one request to the next is the JSON document (`DB`).
* Values the handlers draw from their environment (`nanoid()`, `Date.now()`,
  `new Date().toISOString()`, the file names generated by the upload middleware) are arguments.
* The case mapping `String.prototype.toLowerCase` and the digits `Number::toString` prints are
  operations of the JavaScript runtime that the list handler calls; they are fields of the
  parameter `Runtime`, which also records how they act on ASCII strings and on integers, and
  every statement about the list handler holds for every runtime.
-/

namespace Marketplace

/-! ## JavaScript values -/

/-- Result of a numeric conversion: a finite number, `NaN`, `Infinity` or `-Infinity`. -/
inductive JSNum where
  | nan
  | posInf
  | negInf
  | fin (q : ℚ)
  deriving DecidableEq, Repr

/-- Value as delivered by a body or query parser or read back from the JSON store.  An array or
object is `object text`, where `text` is what `ToString` gives for it (`"1,2"` for `[1, 2]`,
`"[object Object]"` for `{}`); an object whose conversion to a string fails, one with a field
of its own named `toString` that is not a function, is not among these values. -/
inductive JSVal where
  | undefined
  | null
  | bool (b : Bool)
  | num (q : ℚ)
  | str (s : String)
  | object (text : String)
  deriving DecidableEq, Repr

/-- ToBoolean: `undefined`, `null`, `false`, `0` and `""` are falsy; every array and object is
truthy. -/
def truthy : JSVal → Bool
  | .undefined => false
  | .null => false
  | .bool b => b
  | .num q => decide (q ≠ 0)
  | .str s => decide (s ≠ "")
  | .object _ => true

/-- ToBoolean on a conversion result: `NaN` and `0` are falsy. -/
def JSNum.truthy : JSNum → Bool
  | .nan => false
  | .fin q => decide (q ≠ 0)
  | _ => true

/-- The operator `===` between a stored value and a request value, or two stored values.  Two
arrays or objects are compared by reference, and values of separate parses are never the same
reference. -/
def strictEq : JSVal → JSVal → Bool
  | .object _, _ => false
  | _, .object _ => false
  | a, b => decide (a = b)

/-- The operator `===` on two numbers: `NaN` equals nothing. -/
def JSNum.strictEq : JSNum → JSNum → Bool
  | .nan, _ => false
  | _, .nan => false
  | a, b => decide (a = b)

/-- The operator `<=` on two numbers. -/
def JSNum.le : JSNum → JSNum → Bool
  | .nan, _ => false
  | _, .nan => false
  | .negInf, _ => true
  | _, .posInf => true
  | .posInf, _ => false
  | _, .negInf => false
  | .fin a, .fin b => decide (a ≤ b)

/-- The operator `<` on two numbers (`a > b` is `JSNum.lt b a`). -/
def JSNum.lt : JSNum → JSNum → Bool
  | .nan, _ => false
  | _, .nan => false
  | .posInf, _ => false
  | _, .negInf => false
  | .negInf, _ => true
  | _, .posInf => true
  | .fin a, .fin b => decide (a < b)

/-- Unary minus on a number. -/
def JSNum.neg : JSNum → JSNum
  | .nan => .nan
  | .posInf => .negInf
  | .negInf => .posInf
  | .fin q => .fin (-q)

/-! ## Rounding to binary64 -/

/-- Nearest integer to `a / b`, a tie going to the even neighbour. -/
def roundHalfEven (a b : Nat) : Nat :=
  if 2 * (a % b) < b then a / b
  else if b < 2 * (a % b) then a / b + 1
  else if a / b % 2 = 0 then a / b
  else a / b + 1

/-- Binary logarithm by repeated halving, at most `fuel` times. -/
def log2Fuel : Nat → Nat → Nat
  | 0, _ => 0
  | fuel + 1, n => if 2 ≤ n then log2Fuel fuel (n / 2) + 1 else 0

/-- The integer part of the binary logarithm of a positive integer. -/
def ilog2 (n : Nat) : Nat := log2Fuel n n

/-- The integer part of the binary logarithm of `a / b`, for positive `a` and `b`. -/
def floorLog2 (a b : Nat) : Int :=
  let k : Int := (ilog2 a : Int) - (ilog2 b : Int)
  if 0 ≤ k then (if b * 2 ^ k.toNat ≤ a then k else k - 1)
  else (if b ≤ a * 2 ^ (-k).toNat then k else k - 1)

/-- The Number value for the non-negative rational `a / b`: the nearest number of the form
`m * 2 ^ e` with `m < 2 ^ 53` and `-1074 ≤ e`, ties to the even `m`, and `Infinity` from
`2 ^ 1024` on. -/
def roundBinary64 (a b : Nat) : JSNum :=
  if a = 0 then .fin 0
  else
    let e : Int := max (floorLog2 a b - 52) (-1074)
    if 0 ≤ e then
      if 2 ^ 1024 ≤ roundHalfEven a (b * 2 ^ e.toNat) * 2 ^ e.toNat then .posInf
      else .fin ((roundHalfEven a (b * 2 ^ e.toNat) * 2 ^ e.toNat : Nat) : ℚ)
    else
      .fin ((roundHalfEven (a * 2 ^ (-e).toNat) b : ℚ) / ((2 ^ (-e).toNat : Nat) : ℚ))

/-! ## The conversion `Number(..)` -/

/-- White space and line terminators stripped by StringToNumber. -/
def isStrWhiteSpaceChar (c : Char) : Bool :=
  let n := c.toNat
  (0x9 ≤ n && n ≤ 0xD) || n == 0x20 || n == 0xA0 || n == 0x1680 || (0x2000 ≤ n && n ≤ 0x200A)
    || n == 0x2028 || n == 0x2029 || n == 0x202F || n == 0x205F || n == 0x3000 || n == 0xFEFF

/-- Strip leading and trailing white space. -/
def trimWhiteSpace (cs : List Char) : List Char :=
  ((cs.dropWhile isStrWhiteSpaceChar).reverse.dropWhile isStrWhiteSpaceChar).reverse

/-- One of the characters `0` to `9`. -/
def isDecimalDigit (c : Char) : Bool := 48 ≤ c.toNat && c.toNat ≤ 57

/-- Value of one digit in a radix up to 16, if the character is such a digit. -/
def digitValue (radix : Nat) (c : Char) : Option Nat :=
  let n := c.toNat
  let v := if 48 ≤ n && n ≤ 57 then some (n - 48)
    else if 97 ≤ n && n ≤ 102 then some (n - 87)
    else if 65 ≤ n && n ≤ 70 then some (n - 55)
    else none
  v.bind fun d => if d < radix then some d else none

/-- Value of a non-empty digit string in the given radix. -/
def digitsValue (radix : Nat) (cs : List Char) : Option Nat :=
  if cs.isEmpty then none
  else cs.foldl (fun acc c => acc.bind fun a => (digitValue radix c).map fun d => radix * a + d)
    (some 0)

/-- NonDecimalIntegerLiteral: `0x`, `0o` or `0b` followed by digits (no sign). -/
def nonDecimalLiteral : List Char → Option Nat
  | '0' :: 'x' :: t => digitsValue 16 t
  | '0' :: 'X' :: t => digitsValue 16 t
  | '0' :: 'o' :: t => digitsValue 8 t
  | '0' :: 'O' :: t => digitsValue 8 t
  | '0' :: 'b' :: t => digitsValue 2 t
  | '0' :: 'B' :: t => digitsValue 2 t
  | _ => none

/-- Value of a (possibly empty) run of decimal digits. -/
def decimalRun (ds : List Char) : Nat :=
  ds.foldl (fun a c => 10 * a + (c.toNat - 48)) 0

/-- An optional sign in front of a literal: whether it is `-`, and what follows it. -/
def splitSign : List Char → Bool × List Char
  | '+' :: t => (false, t)
  | '-' :: t => (true, t)
  | cs => (false, cs)

/-- ExponentPart after the `e`: an optionally signed non-empty run of decimal digits. -/
def exponentPart (cs : List Char) : Option ℤ :=
  let signed := splitSign cs
  if signed.2.isEmpty || !signed.2.all isDecimalDigit then none
  else some (if signed.1 then -(decimalRun signed.2 : ℤ) else (decimalRun signed.2 : ℤ))

/-- Numerator and denominator of `digits * 10 ^ k`. -/
def scaleDecimal (digits : Nat) (k : ℤ) : Nat × Nat :=
  if 0 ≤ k then (digits * 10 ^ k.toNat, 1) else (digits, 10 ^ (-k).toNat)

/-- StrUnsignedDecimalLiteral other than `Infinity`: digits, optional fraction, optional
exponent, with at least one digit before the exponent.  The result is the exact value, as
numerator and denominator. -/
def unsignedDecimal (cs : List Char) : Option (Nat × Nat) :=
  let ip := cs.span isDecimalDigit
  let fp : List Char × List Char :=
    match ip.2 with
    | '.' :: t => t.span isDecimalDigit
    | r => ([], r)
  if ip.1.isEmpty && fp.1.isEmpty then none
  else
    match fp.2 with
    | [] => some (scaleDecimal (decimalRun (ip.1 ++ fp.1)) (-(fp.1.length : ℤ)))
    | e :: t =>
      if e = 'e' || e = 'E' then
        (exponentPart t).map fun k =>
          scaleDecimal (decimalRun (ip.1 ++ fp.1)) (k - (fp.1.length : ℤ))
      else none

/-- StringToNumber, the conversion `Number(s)` applies to a string: white space is trimmed, the
empty string is `0`, a string outside the numeric grammar is `NaN`, and the value of a literal is
rounded to binary64. -/
def stringToNumber (s : String) : JSNum :=
  let cs := trimWhiteSpace s.data
  if cs.isEmpty then .fin 0
  else
    match nonDecimalLiteral cs with
    | some n => roundBinary64 n 1
    | none =>
      let signed := splitSign cs
      if signed.2 = "Infinity".data then (if signed.1 then .negInf else .posInf)
      else
        match unsignedDecimal signed.2 with
        | some v => if signed.1 then (roundBinary64 v.1 v.2).neg else roundBinary64 v.1 v.2
        | none => .nan

/-- The conversion `Number(v)` (ToNumber); an array or object is converted through its string. -/
def toNumber : JSVal → JSNum
  | .undefined => .nan
  | .null => .fin 0
  | .bool b => .fin (if b then 1 else 0)
  | .num q => .fin q
  | .str s => stringToNumber s
  | .object text => stringToNumber text

/-- What a number becomes once written to the JSON file and read back: `JSON.stringify` writes
`NaN` and the infinities as `null`. -/
def JSNum.toJSON : JSNum → JSVal
  | .fin q => .num q
  | _ => .null

/-- The expression `n || 0` on a number. -/
def JSNum.orZero (n : JSNum) : JSNum := if n.truthy then n else .fin 0

/-! ## The store -/

/-- User record of `db.data.users`. -/
structure User where
  id : String
  name : JSVal
  studentId : JSVal
  password : JSVal
  deriving DecidableEq, Repr

/-- Listing record of `db.data.listings`.  The `id` is the `Date.now()` of its creation, a
count of milliseconds below `2 ^ 53`: `Number(l.id)` is that integer and `String(l.id)` its
decimal digits. -/
structure Listing where
  id : Nat
  title : JSVal
  desc : JSVal
  price : JSVal
  category : JSVal
  studentId : JSVal
  media : List String
  createdAt : String
  deriving DecidableEq, Repr

/-- The JSON document `db.data`. -/
structure DB where
  users : List User
  listings : List Listing
  deriving DecidableEq, Repr

/-- The document `initDB` writes when the file is empty. -/
def initDB : DB := { users := [], listings := [] }

/-- Status code and the `ok` and `msg` fields of the JSON response. -/
structure Response where
  status : Nat
  ok : Bool
  msg : Option String
  deriving DecidableEq, Repr

/-- Response of `res.json({ ok: true, .. })`. -/
def okResponse : Response := { status := 200, ok := true, msg := none }

/-- Response of `res.status(code).json({ ok: false, msg })`. -/
def failResponse (code : Nat) (msg : String) : Response :=
  { status := code, ok := false, msg := some msg }

/-! ## Account operations (`server.js`) -/

/-- Handler of `POST /api/register`; `newId` is the value of `nanoid()`. -/
def register (db : DB) (newId : String) (name studentId password : JSVal) : DB × Response :=
  if !truthy name || !truthy studentId || !truthy password then
    (db, failResponse 400 "Missing fields")
  else
    match db.users.find? (fun u => strictEq u.studentId studentId) with
    | some _ => (db, failResponse 409 "Student ID already used")
    | none =>
      ({ db with users := db.users ++ [{ id := newId, name := name, studentId := studentId,
                                         password := password }] }, okResponse)

/-- Handler of `POST /api/login`. -/
def login (db : DB) (studentId password : JSVal) : DB × Response :=
  match db.users.find? (fun u => strictEq u.studentId studentId && strictEq u.password password) with
  | none => (db, failResponse 401 "Invalid credentials")
  | some _ => (db, okResponse)

/-- Handler of `GET /api/users/:studentId`; a route parameter is a string. -/
def getUser (db : DB) (studentId : String) : DB × Response :=
  match db.users.find? (fun x => strictEq x.studentId (.str studentId)) with
  | none => (db, failResponse 404 "Not found")
  | some _ => (db, okResponse)

/-! ## Account operations of the browser prototype (`script.js`) -/

/-- Entry of the `da_users` array in local storage. -/
structure LocalUser where
  name : JSVal
  studentId : JSVal
  password : JSVal
  deriving DecidableEq, Repr

/-- The two local-storage keys `Auth` uses; a missing `da_users` key reads as the empty array
and a missing `da_current` key as `null`. -/
structure LocalStorage where
  da_users : List LocalUser
  da_current : Option (JSVal × JSVal)
  deriving DecidableEq, Repr

/-- Result object `{ ok, msg }` of the `Auth` methods. -/
structure AuthResult where
  ok : Bool
  msg : Option String
  deriving DecidableEq, Repr

/-- Method `Auth.register`. -/
def Auth.register (st : LocalStorage) (name studentId password : JSVal) :
    LocalStorage × AuthResult :=
  if !truthy name || !truthy studentId || !truthy password then
    (st, { ok := false, msg := some "Please fill all fields" })
  else if st.da_users.any (fun u => strictEq u.studentId studentId) then
    (st, { ok := false, msg := some "Student ID already used" })
  else
    ({ da_users := st.da_users ++ [{ name := name, studentId := studentId, password := password }],
       da_current := some (name, studentId) }, { ok := true, msg := none })

/-- Method `Auth.login`. -/
def Auth.login (st : LocalStorage) (studentId password : JSVal) : LocalStorage × AuthResult :=
  match st.da_users.find? (fun x => strictEq x.studentId studentId && strictEq x.password password) with
  | none => (st, { ok := false, msg := some "Invalid credentials" })
  | some u => ({ st with da_current := some (u.name, u.studentId) }, { ok := true, msg := none })

/-! ## Strings -/

/-- Lowercasing of the letters `A` to `Z`, every other character left as it is. -/
def asciiLower (s : String) : String :=
  String.mk (s.data.map fun c => if 65 ≤ c.toNat ∧ c.toNat ≤ 90 then Char.ofNat (c.toNat + 32) else c)

/-- Every character of the string is an ASCII character. -/
def isAscii (s : String) : Bool := s.data.all fun c => decide (c.toNat < 128)

/-- The two string operations of the JavaScript runtime that the list handler calls:
`String.prototype.toLowerCase` and the string `Number::toString` prints for a number.  Of the
case mapping it is known that on an ASCII string it lowercases the letters `A` to `Z` and
nothing else, and of the printing that an integer below `10 ^ 21` in absolute value is printed
as its decimal digits, with a minus sign when negative. -/
structure Runtime where
  toLowerCase : String → String
  numberToString : ℚ → String
  toLowerCase_ascii : ∀ s : String, isAscii s = true → toLowerCase s = asciiLower s
  numberToString_int : ∀ n : Int, |n| < 10 ^ 21 → numberToString (n : ℚ) = toString n

/-- ToString on a value, as string concatenation applies it. -/
def toStr (rt : Runtime) : JSVal → String
  | .undefined => "undefined"
  | .null => "null"
  | .bool b => if b then "true" else "false"
  | .num q => rt.numberToString q
  | .str s => s
  | .object text => text

/-- Search for `q` in a text: at some position of the text, `q` is what follows. -/
def includesChars : List Char → List Char → Bool
  | [], q => q.isEmpty
  | c :: t, q => q.isPrefixOf (c :: t) || includesChars t q

/-- The method `includes`. -/
def includes (s q : String) : Bool := includesChars s.data q.data

/-! ## Listing operations (`server.js`) -/

/-- The test `i.price <= 50`. -/
def priceLow (i : Listing) : Bool := (toNumber i.price).le (.fin 50)

/-- The test `i.price > 50 && i.price <= 200`. -/
def priceMid (i : Listing) : Bool :=
  JSNum.lt (.fin 50) (toNumber i.price) && (toNumber i.price).le (.fin 200)

/-- The test `i.price > 200`. -/
def priceHigh (i : Listing) : Bool := JSNum.lt (.fin 200) (toNumber i.price)

/-- The test `(i.title + ' ' + i.desc).toLowerCase().includes(q)`. -/
def matchesSearch (rt : Runtime) (q : String) (i : Listing) : Bool :=
  includes (rt.toLowerCase (toStr rt i.title ++ " " ++ toStr rt i.desc)) q

/-- Handler of `GET /api/listings?cat=&search=&price=`: the listings of the response, or `none`
when the handler throws and sends no response.  A query parameter is absent, a string, or an
array or object (as for `search=a&search=b`); `search.toLowerCase()` throws unless `search` is a
string. -/
def listListings (rt : Runtime) (db : DB) (cat search price : JSVal) : Option (List Listing) :=
  let items₀ := db.listings
  let items₁ := if truthy cat then items₀.filter (fun i => strictEq i.category cat) else items₀
  let items₂ : Option (List Listing) :=
    if truthy search then
      match search with
      | .str s => some (items₁.filter (matchesSearch rt (rt.toLowerCase s)))
      | _ => none
    else some items₁
  items₂.map fun items =>
    if truthy price then
      let a := if strictEq price (.str "0-50") then items.filter priceLow else items
      let b := if strictEq price (.str "50-200") then a.filter priceMid else a
      if strictEq price (.str "200+") then b.filter priceHigh else b
    else items

/-- Handler of `GET /api/listings/:id`. -/
def getListing (db : DB) (id : String) : DB × Response :=
  match db.listings.find? (fun l => decide (toString l.id = id)) with
  | none => (db, failResponse 404 "Not found")
  | some _ => (db, okResponse)

/-- Paths recorded for the uploaded files: `/uploads/` followed by the generated file name. -/
def mediaPaths (files : List String) : List String := files.map fun f => "/uploads/" ++ f

/-- Value of a destructured field with a default: the default replaces `undefined` only. -/
def withDefault (v d : JSVal) : JSVal := if v = .undefined then d else v

/-- Handler of `POST /api/listings`; `now` is `Date.now()`, `createdAt` the ISO time stamp and
`files` the names generated for the files the upload middleware accepted (it refuses a request
with more than six before the handler runs).  The stored price is what `Number(price) || 0`
reads back as from the JSON file. -/
def createListing (db : DB) (now : Nat) (createdAt : String) (files : List String)
    (title desc price category studentId : JSVal) : DB × Response :=
  let price := withDefault price (.num 0)
  let category := withDefault category (.str "misc")
  if !truthy title || !truthy studentId then
    (db, failResponse 400 "Missing title or studentId")
  else
    let item : Listing :=
      { id := now, title := title, desc := desc, price := (toNumber price).orZero.toJSON,
        category := category, studentId := studentId, media := mediaPaths files,
        createdAt := createdAt }
    ({ db with listings := item :: db.listings }, okResponse)

/-- The assignments of `PUT /api/listings/:id` to the listing found.  The stored price is what
`Number(price)` reads back as from the JSON file. -/
def applyUpdate (files : List String) (title desc price category : JSVal) (l : Listing) :
    Listing :=
  let l₁ := if truthy title then { l with title := title } else l
  let l₂ := if truthy desc then { l₁ with desc := desc } else l₁
  let l₃ := if truthy price then { l₂ with price := (toNumber price).toJSON } else l₂
  let l₄ := if truthy category then { l₃ with category := category } else l₃
  if files.length ≠ 0 then { l₄ with media := mediaPaths files } else l₄

/-- Handler of `PUT /api/listings/:id`. -/
def updateListing (db : DB) (id : String) (files : List String)
    (title desc price category : JSVal) : DB × Response :=
  let n := stringToNumber id
  match db.listings.findIdx? (fun l => JSNum.strictEq (.fin l.id) n) with
  | none => (db, failResponse 404 "Not found")
  | some idx =>
    ({ db with listings := db.listings.modify (applyUpdate files title desc price category) idx },
     okResponse)

/-- Handler of `DELETE /api/listings/:id`. -/
def deleteListing (db : DB) (id : String) : DB × Response :=
  let n := stringToNumber id
  ({ db with listings := db.listings.filter (fun l => !JSNum.strictEq (.fin l.id) n) },
   okResponse)

/-! ## Sequences of requests -/

/-- One request to the HTTP interface, with the environment values its handler draws. -/
inductive Request where
  | register (newId : String) (name studentId password : JSVal)
  | login (studentId password : JSVal)
  | getUser (studentId : String)
  | list (cat search price : JSVal)
  | get (id : String)
  | create (now : Nat) (createdAt : String) (files : List String)
      (title desc price category studentId : JSVal)
  | update (id : String) (files : List String) (title desc price category : JSVal)
  | delete (id : String)
  deriving Repr

/-- The store after a request has been handled. -/
def step (db : DB) : Request → DB
  | .register newId name studentId password => (register db newId name studentId password).1
  | .login studentId password => (login db studentId password).1
  | .getUser studentId => (getUser db studentId).1
  | .list _ _ _ => db
  | .get id => (getListing db id).1
  | .create now createdAt files title desc price category studentId =>
    (createListing db now createdAt files title desc price category studentId).1
  | .update id files title desc price category =>
    (updateListing db id files title desc price category).1
  | .delete id => (deleteListing db id).1

/-- The store after a sequence of requests. -/
def run (db : DB) (rs : List Request) : DB := rs.foldl step db

/-! ## Predicates used in the statements -/

/-- Some field of a registration is falsy. -/
def anyFalsy (name studentId password : JSVal) : Prop :=
  truthy name = false ∨ truthy studentId = false ∨ truthy password = false

/-- A string, a number or a boolean. -/
def isScalarId : JSVal → Bool
  | .str _ => true
  | .num _ => true
  | .bool _ => true
  | _ => false

/-- No two entries of the users collection carry the same string, number or boolean as
studentId. -/
def UniqueScalarIds (db : DB) : Prop :=
  db.users.Pairwise fun a b => isScalarId a.studentId = true → a.studentId ≠ b.studentId

/-- The `search` parameter makes the list handler throw: it is truthy and not a string. -/
def searchThrows (search : JSVal) : Bool :=
  match search with
  | .str _ => false
  | v => truthy v

/-- Restriction a `cat` parameter imposes on a listing: none when the parameter is absent or
empty (falsy); otherwise the category is the same string, number or boolean as `cat`, which no
category is when `cat` is an array or object. -/
def catAllows (cat : JSVal) (l : Listing) : Bool :=
  if truthy cat = false then true
  else
    match cat with
    | .object _ => false
    | c => decide (l.category = c)

/-- Restriction a string `search` parameter imposes: none when it is empty, otherwise the
lowercased search occurs as a contiguous substring of the lowercased title, a space and the
description.  An absent parameter imposes none. -/
def searchAllows (rt : Runtime) (search : JSVal) (l : Listing) : Bool :=
  match search with
  | .str s =>
    decide (s = "" ∨
      (rt.toLowerCase s).data <:+: (rt.toLowerCase (toStr rt l.title ++ " " ++ toStr rt l.desc)).data)
  | _ => true

/-- Restriction a `price` parameter imposes: the bucket it names (at most 50, above 50 up to
200, above 200); none when it is absent, empty or names no bucket. -/
def priceAllows (price : JSVal) (l : Listing) : Bool :=
  match price with
  | .str p =>
    if p = "0-50" then priceLow l
    else if p = "50-200" then priceMid l
    else if p = "200+" then priceHigh l
    else true
  | _ => true

/-- Test `0 <= n` on a finite number; `NaN` and the infinities fail it. -/
def JSNum.finiteNonNeg : JSNum → Bool
  | .fin q => decide (0 ≤ q)
  | _ => false

/-- The price a request supplies is stored as a non-negative number: on create `Number(price)`
is `NaN` or a finite number that is not negative, on update the price is falsy (not written) or
`Number(price)` is a finite number that is not negative.  Other requests supply no price. -/
def suppliesNonNegPrice : Request → Bool
  | .create _ _ _ _ _ price _ _ => (toNumber (withDefault price (.num 0))).orZero.finiteNonNeg
  | .update _ _ _ _ price _ => !truthy price || (toNumber price).finiteNonNeg
  | _ => true

/-- Every price the request writes to the store satisfies `P`: the price `createListing`
stores, and the price `updateListing` stores when the `price` field is truthy. -/
def WritesPrice (P : JSVal → Prop) : Request → Prop
  | .create _ _ _ _ _ price _ _ => P (toNumber (withDefault price (.num 0))).orZero.toJSON
  | .update _ _ _ _ price _ => truthy price = true → P (toNumber price).toJSON
  | _ => True

/-! ## Sample data -/

/-- A runtime for evaluating examples: it lowercases the letters `A` to `Z` only and prints
integers only. -/
def asciiRuntime : Runtime :=
  { toLowerCase := asciiLower
    numberToString := fun q => if q.den = 1 then toString q.num else ""
    toLowerCase_ascii := fun _ _ => rfl
    numberToString_int := fun n _ => by simp }

/-- A registered student. -/
def sampleUser : User :=
  { id := "V1StGXR8_Z5jdHi6B-myT", name := .str "Ana", studentId := .str "20481234",
    password := .str "hunter2" }

/-- A listing priced at the first bucket boundary. -/
def sampleBike : Listing :=
  { id := 1700000000000, title := .str "Bike", desc := .str "Red road bike", price := .num 50,
    category := .str "sports", studentId := .str "20481234",
    media := ["/uploads/1700000000000-a1B2c3.png"], createdAt := "2023-11-14T22:13:20.000Z" }

/-- A listing priced at the second bucket boundary. -/
def sampleTextbook : Listing :=
  { id := 1700000000500, title := .str "Calculus textbook", desc := .undefined, price := .num 200,
    category := .str "books", studentId := .str "20481234", media := [],
    createdAt := "2023-11-14T22:13:20.500Z" }

/-- A listing above the second bucket boundary. -/
def sampleLaptop : Listing :=
  { id := 1700000001000, title := .str "Laptop", desc := .str "13 inch", price := .num 201,
    category := .str "electronics", studentId := .str "20485678", media := [],
    createdAt := "2023-11-14T22:13:21.000Z" }

/-- A store with one user and three listings. -/
def sampleDB : DB :=
  { users := [sampleUser], listings := [sampleBike, sampleTextbook, sampleLaptop] }

/-- Two registrations that carry the array `[1]` as studentId. -/
def arrayIdRegistrations : List Request :=
  [.register "V1StGXR8_Z5jdHi6B-myT" (.str "Ana") (.object "1") (.str "hunter2"),
   .register "3f9aKq0LmZ2xYw7TnB4cP" (.str "Ben") (.object "1") (.str "letmein")]

/-! ## Auxiliary facts: values -/

theorem strictEq_true_iff (a b : JSVal) :
    strictEq a b = true ↔ a = b ∧ ∀ t, a ≠ .object t := by
  cases a <;> cases b <;> simp [strictEq]

theorem strictEq_str_iff (a : JSVal) (s : String) : strictEq a (.str s) = true ↔ a = .str s := by
  cases a <;> simp [strictEq]

theorem strictEq_of_eq_scalar {a b : JSVal} (h : a = b) (hs : ∀ t, b ≠ .object t) :
    strictEq a b = true := by
  subst h
  exact (strictEq_true_iff a a).2 ⟨rfl, hs⟩

theorem strictEq_fin_iff (a : ℚ) (n : JSNum) : JSNum.strictEq (.fin a) n = true ↔ n = .fin a := by
  cases n <;> simp [JSNum.strictEq, eq_comm]

theorem find?_none_or_some {α : Type} (p : α → Bool) (l : List α) :
    (l.find? p = none ∧ ∀ x ∈ l, p x = false) ∨ (∃ x, l.find? p = some x ∧ x ∈ l ∧ p x = true) := by
  cases h : l.find? p with
  | none => exact Or.inl ⟨rfl, by simpa using h⟩
  | some x => exact Or.inr ⟨x, rfl, List.mem_of_find?_eq_some h, List.find?_some h⟩

/-! ## Auxiliary facts: `Number` on the decimal digits of an integer -/

theorem digitChar_facts : ∀ m, m < 10 →
    isDecimalDigit (Nat.digitChar m) = true ∧ (Nat.digitChar m).toNat - 48 = m := by
  decide

theorem decimalRun_foldl (ds : List Char) : ∀ a : Nat,
    ds.foldl (fun a c => 10 * a + (c.toNat - 48)) a = a * 10 ^ ds.length + decimalRun ds := by
  induction ds with
  | nil => intro a; simp [decimalRun]
  | cons c t ih =>
    intro a
    simp only [List.foldl_cons, List.length_cons, decimalRun]
    rw [ih, ih (10 * 0 + (c.toNat - 48))]
    ring

theorem decimalRun_cons (c : Char) (ds : List Char) :
    decimalRun (c :: ds) = (c.toNat - 48) * 10 ^ ds.length + decimalRun ds := by
  simp only [decimalRun, List.foldl_cons]
  rw [decimalRun_foldl]
  simp [decimalRun]

theorem toDigitsCore_facts : ∀ (fuel n : Nat) (ds : List Char), n < fuel →
    (∀ c ∈ ds, isDecimalDigit c = true) →
    (∀ c ∈ Nat.toDigitsCore 10 fuel n ds, isDecimalDigit c = true) ∧
    Nat.toDigitsCore 10 fuel n ds ≠ [] ∧
    decimalRun (Nat.toDigitsCore 10 fuel n ds) = n * 10 ^ ds.length + decimalRun ds := by
  intro fuel
  induction fuel with
  | zero => intro n ds h; omega
  | succ fuel ih =>
    intro n ds hn hds
    have hd := digitChar_facts (n % 10) (Nat.mod_lt _ (by norm_num))
    have hcons : ∀ c ∈ Nat.digitChar (n % 10) :: ds, isDecimalDigit c = true := by
      intro c hc
      rcases List.mem_cons.1 hc with rfl | hc
      · exact hd.1
      · exact hds c hc
    unfold Nat.toDigitsCore
    by_cases h0 : n / 10 = 0
    · simp only [h0, if_true]
      refine ⟨hcons, by simp, ?_⟩
      rw [decimalRun_cons, hd.2]
      have : n % 10 = n := by omega
      rw [this]
    · simp only [h0, if_false]
      have hlt : n / 10 < fuel := by omega
      obtain ⟨h1, h2, h3⟩ := ih (n / 10) (Nat.digitChar (n % 10) :: ds) hlt hcons
      refine ⟨h1, h2, ?_⟩
      rw [h3, decimalRun_cons, hd.2, List.length_cons, pow_succ]
      have e : n * 10 ^ ds.length = (10 * (n / 10) + n % 10) * 10 ^ ds.length := by
        rw [Nat.div_add_mod n 10]
      rw [e]
      ring

/-- The decimal digits `String(n)` prints: a non-empty run of digits whose value is `n`. -/
theorem toString_digits (n : Nat) :
    (∀ c ∈ (toString n).data, isDecimalDigit c = true) ∧ (toString n).data ≠ [] ∧
    decimalRun (toString n).data = n := by
  have h := toDigitsCore_facts (n + 1) n [] (by omega) (by simp)
  have e : (toString n).data = Nat.toDigitsCore 10 (n + 1) n [] := rfl
  rw [e]
  refine ⟨h.1, h.2.1, ?_⟩
  rw [h.2.2]
  simp [decimalRun]

theorem log2Fuel_eq : ∀ (fuel n : Nat), n ≤ fuel → log2Fuel fuel n = Nat.log2 n := by
  intro fuel
  induction fuel with
  | zero =>
    intro n hn
    have : n = 0 := by omega
    subst this
    rw [Nat.log2]
    simp [log2Fuel]
  | succ fuel ih =>
    intro n hn
    rw [Nat.log2]
    simp only [log2Fuel, ge_iff_le]
    by_cases h2 : 2 ≤ n
    · simp only [h2, if_true]
      rw [ih (n / 2) (by omega)]
    · simp [h2]

theorem ilog2_eq (n : Nat) : ilog2 n = Nat.log2 n := log2Fuel_eq n n (Nat.le_refl n)

theorem roundHalfEven_one (a : Nat) : roundHalfEven a 1 = a := by
  simp [roundHalfEven, Nat.mod_one]

set_option exponentiation.threshold 2048 in
/-- An integer below `2 ^ 53` is a binary64 number. -/
theorem roundBinary64_nat (n : Nat) (h : n < 2 ^ 53) : roundBinary64 n 1 = .fin n := by
  by_cases h0 : n = 0
  · simp [roundBinary64, h0]
  · have hlog : n.log2 < 53 := (Nat.log2_lt h0).2 h
    have hle : 2 ^ n.log2 ≤ n := Nat.log2_self_le h0
    have hfl : floorLog2 n 1 = (n.log2 : Int) := by
      have h1 : Nat.log2 1 = 0 := by
        have := (Nat.log2_lt (by norm_num : (1 : Nat) ≠ 0)).2 (by norm_num : 1 < 2 ^ 1)
        omega
      simp only [floorLog2, ilog2_eq, h1]
      have hk : (0 : Int) ≤ (n.log2 : Int) - ((0 : Nat) : Int) := by simp
      simp [hle]
    have he : max (floorLog2 n 1 - 52) (-1074) = (n.log2 : Int) - 52 := by
      rw [hfl]; omega
    unfold roundBinary64
    simp only [h0, if_false, he]
    by_cases h52 : n.log2 = 52
    · have hz : (0 : Int) ≤ (n.log2 : Int) - 52 := by omega
      have ht : ((n.log2 : Int) - 52).toNat = 0 := by omega
      simp only [hz, if_true, ht, pow_zero, Nat.mul_one, roundHalfEven_one]
      have hbig : ¬ (2 ^ 1024 ≤ n) :=
        Nat.not_le.2 (Nat.lt_of_lt_of_le h (Nat.pow_le_pow_right (by decide) (by decide)))
      rw [if_neg hbig]
    · have hz : ¬ ((0 : Int) ≤ (n.log2 : Int) - 52) := by omega
      simp only [hz, if_false, Nat.mul_one, roundHalfEven_one]
      congr 1
      have hp : ((2 ^ (-((n.log2 : Int) - 52)).toNat : Nat) : ℚ) ≠ 0 := by
        have : 0 < 2 ^ (-((n.log2 : Int) - 52)).toNat := Nat.pos_pow_of_pos _ (by norm_num)
        exact_mod_cast this.ne'
      rw [Nat.cast_mul]
      field_simp

theorem dropWhile_of_all_false {α : Type} (p : α → Bool) (l : List α)
    (h : ∀ x ∈ l, p x = false) : l.dropWhile p = l := by
  cases l with
  | nil => rfl
  | cons a t => simp [List.dropWhile_cons, h a (List.mem_cons_self _ _)]

theorem not_whiteSpace_of_digit (c : Char) (h : isDecimalDigit c = true) :
    isStrWhiteSpaceChar c = false := by
  simp only [isDecimalDigit, Bool.and_eq_true, decide_eq_true_eq] at h
  simp only [isStrWhiteSpaceChar, Bool.or_eq_false_iff, Bool.and_eq_false_imp, decide_eq_true_eq,
    beq_eq_false_iff_ne, ne_eq, decide_eq_false_iff_not]
  omega

theorem trimWhiteSpace_digits (l : List Char) (h : ∀ c ∈ l, isDecimalDigit c = true) :
    trimWhiteSpace l = l := by
  unfold trimWhiteSpace
  rw [dropWhile_of_all_false _ l (fun c hc => not_whiteSpace_of_digit c (h c hc))]
  rw [dropWhile_of_all_false _ l.reverse
    (fun c hc => not_whiteSpace_of_digit c (h c (List.mem_reverse.1 hc)))]
  exact List.reverse_reverse l

theorem span_digits (l : List Char) (h : ∀ c ∈ l, isDecimalDigit c = true) :
    l.span isDecimalDigit = (l, []) := by
  rw [List.span_eq_take_drop]
  have h1 : l.takeWhile isDecimalDigit = l := List.takeWhile_eq_self_iff.2 h
  have h2 : l.dropWhile isDecimalDigit = [] := List.dropWhile_eq_nil_iff.2 h
  rw [h1, h2]

theorem splitSign_digits : ∀ l : List Char, (∀ c ∈ l, isDecimalDigit c = true) →
    splitSign l = (false, l)
  | [], _ => rfl
  | c :: t, h => by
    have hc := h c (List.mem_cons_self _ _)
    have h1 : c ≠ '+' := by
      rintro rfl
      revert hc
      decide
    have h2 : c ≠ '-' := by
      rintro rfl
      revert hc
      decide
    unfold splitSign
    split
    · rename_i heq
      exact absurd (List.cons.inj heq).1 h1
    · rename_i heq
      exact absurd (List.cons.inj heq).1 h2
    · rfl

theorem nonDecimalLiteral_digits : ∀ l : List Char, (∀ c ∈ l, isDecimalDigit c = true) →
    nonDecimalLiteral l = none
  | [], _ => rfl
  | [_], _ => by simp [nonDecimalLiteral]
  | a :: b :: t, h => by
    have hb := h b (List.mem_cons_of_mem _ (List.mem_cons_self _ _))
    unfold nonDecimalLiteral
    split <;> first
      | rfl
      | (rename_i heq
         have e := (List.cons.inj (List.cons.inj heq).2).1
         subst e
         exact absurd hb (by decide))

/-- `Number(String(n))` is `n` for an integer below `2 ^ 53`. -/
theorem stringToNumber_toString (n : Nat) (h : n < 2 ^ 53) :
    stringToNumber (toString n) = .fin n := by
  obtain ⟨hd, hne, hval⟩ := toString_digits n
  have htrim := trimWhiteSpace_digits _ hd
  have hspan := span_digits _ hd
  have hsign := splitSign_digits _ hd
  have hnd := nonDecimalLiteral_digits _ hd
  have hempty : (toString n).data.isEmpty = false := by
    cases hl : (toString n).data with
    | nil => exact absurd hl hne
    | cons a t => rfl
  have hinf : (toString n).data ≠ "Infinity".data := by
    intro he
    have := hd 'I' (by rw [he]; decide)
    revert this
    decide
  have hdec : unsignedDecimal (toString n).data = some (n, 1) := by
    unfold unsignedDecimal
    simp only [hspan, hempty, Bool.false_and, Bool.false_eq_true, if_false, List.append_nil,
      List.length_nil, hval]
    simp [scaleDecimal]
  unfold stringToNumber
  simp only [htrim, hempty, Bool.false_eq_true, if_false, hnd, hsign, hinf, hdec]
  exact roundBinary64_nat n h

/-- `Number` on sample strings: a value between two binary64 numbers is rounded to the nearest,
a value beyond the range becomes an infinity, a value below the smallest positive number
becomes 0, and a string outside the numeric grammar is `NaN`. -/
theorem number_samples :
    stringToNumber "1700000000000.00001" = .fin 1700000000000 ∧
    stringToNumber "9007199254740993" = .fin 9007199254740992 ∧
    stringToNumber "0.1" = .fin (3602879701896397 / 36028797018963968) ∧
    stringToNumber " 12.50 " = .fin (25 / 2) ∧
    stringToNumber "1e400" = .posInf ∧
    stringToNumber "-1e400" = .negInf ∧
    stringToNumber "1e-400" = .fin 0 ∧
    stringToNumber "0x1F" = .fin 31 ∧
    stringToNumber "-Infinity" = .negInf ∧
    stringToNumber "" = .fin 0 ∧
    stringToNumber "12px" = .nan ∧
    stringToNumber "abc" = .nan := by
  decide!

/-! ## Account operations -/

theorem guard_of_anyFalsy {a b c : JSVal} (h : anyFalsy a b c) :
    (!truthy a || !truthy b || !truthy c) = true := by
  rcases h with h | h | h <;> simp [h]

theorem guard_of_not_anyFalsy {a b c : JSVal} (h : ¬ anyFalsy a b c) :
    (!truthy a || !truthy b || !truthy c) = false := by
  simp only [anyFalsy, not_or, Bool.not_eq_false] at h
  simp [h.1, h.2.1, h.2.2]

/-- The three outcomes of `register`. -/
theorem register_cases (db : DB) (newId : String) (name studentId password : JSVal) :
    (anyFalsy name studentId password ∧
      register db newId name studentId password = (db, failResponse 400 "Missing fields")) ∨
    (¬ anyFalsy name studentId password ∧
      (∃ u ∈ db.users, strictEq u.studentId studentId = true) ∧
      register db newId name studentId password =
        (db, failResponse 409 "Student ID already used")) ∨
    (¬ anyFalsy name studentId password ∧
      (∀ u ∈ db.users, strictEq u.studentId studentId = false) ∧
      register db newId name studentId password =
        ({ db with users := db.users ++ [{ id := newId, name := name, studentId := studentId,
                                           password := password }] }, okResponse)) := by
  by_cases hf : anyFalsy name studentId password
  · exact Or.inl ⟨hf, by simp [register, guard_of_anyFalsy hf]⟩
  · rcases find?_none_or_some (fun u => strictEq u.studentId studentId) db.users with
      ⟨hn, hall⟩ | ⟨y, hy, hmem, hp⟩
    · exact Or.inr (Or.inr ⟨hf, hall, by simp [register, guard_of_not_anyFalsy hf, hn]⟩)
    · exact Or.inr (Or.inl ⟨hf, ⟨y, hmem, hp⟩, by simp [register, guard_of_not_anyFalsy hf, hy]⟩)

/-- The three outcomes of `Auth.register`. -/
theorem authRegister_cases (st : LocalStorage) (name studentId password : JSVal) :
    (anyFalsy name studentId password ∧
      Auth.register st name studentId password =
        (st, { ok := false, msg := some "Please fill all fields" })) ∨
    (¬ anyFalsy name studentId password ∧
      (∃ u ∈ st.da_users, strictEq u.studentId studentId = true) ∧
      Auth.register st name studentId password =
        (st, { ok := false, msg := some "Student ID already used" })) ∨
    (¬ anyFalsy name studentId password ∧
      (∀ u ∈ st.da_users, strictEq u.studentId studentId = false) ∧
      Auth.register st name studentId password =
        ({ da_users := st.da_users ++
             [{ name := name, studentId := studentId, password := password }],
           da_current := some (name, studentId) }, { ok := true, msg := none })) := by
  by_cases hf : anyFalsy name studentId password
  · exact Or.inl ⟨hf, by simp [Auth.register, guard_of_anyFalsy hf]⟩
  · by_cases hd : st.da_users.any (fun u => strictEq u.studentId studentId) = true
    · refine Or.inr (Or.inl ⟨hf, by simpa using hd, ?_⟩)
      simp only [Auth.register, guard_of_not_anyFalsy hf, hd]
      simp
    · refine Or.inr (Or.inr ⟨hf, by simpa using hd, ?_⟩)
      simp only [Auth.register, guard_of_not_anyFalsy hf, hd]
      simp

/-- C1. Registration is rejected exactly when a field is falsy (status 400) or, all fields being
truthy, a stored user has a strictly equal studentId (status 409); a rejected request leaves the
store as it was, an accepted one appends one user record carrying the given name, studentId and
password; a studentId that is already stored (a stored string, number or boolean equal to it) is
always refused.  The browser prototype's `Auth.register` rejects and accepts in the same
cases. -/
theorem register_contract (db : DB) (newId : String) (name studentId password : JSVal) :
    ((register db newId name studentId password).2.status = 400 ↔
        (truthy name = false ∨ truthy studentId = false ∨ truthy password = false)) ∧
    ((register db newId name studentId password).2.status = 409 ↔
        ¬ (truthy name = false ∨ truthy studentId = false ∨ truthy password = false) ∧
          ∃ u ∈ db.users, strictEq u.studentId studentId = true) ∧
    ((register db newId name studentId password).2.ok = false ↔
        (truthy name = false ∨ truthy studentId = false ∨ truthy password = false) ∨
          ∃ u ∈ db.users, strictEq u.studentId studentId = true) ∧
    ((register db newId name studentId password).2.ok = false →
        (register db newId name studentId password).1 = db) ∧
    ((register db newId name studentId password).2.ok = true →
        (register db newId name studentId password).2.status = 200 ∧
        (register db newId name studentId password).1.users =
          db.users ++ [{ id := newId, name := name, studentId := studentId,
                         password := password }] ∧
        (register db newId name studentId password).1.listings = db.listings) ∧
    ((∃ u ∈ db.users, strictEq u.studentId studentId = true) →
        (register db newId name studentId password).2.ok = false ∧
        (register db newId name studentId password).1.users = db.users) ∧
    ((∀ t, studentId ≠ .object t) → (∃ u ∈ db.users, u.studentId = studentId) →
        (register db newId name studentId password).2.ok = false ∧
        (register db newId name studentId password).1.users = db.users) ∧
    (∀ st : LocalStorage,
      ((Auth.register st name studentId password).2.ok = false ↔
          (truthy name = false ∨ truthy studentId = false ∨ truthy password = false) ∨
            ∃ u ∈ st.da_users, strictEq u.studentId studentId = true) ∧
      ((Auth.register st name studentId password).2.ok = false →
          (Auth.register st name studentId password).1 = st) ∧
      ((Auth.register st name studentId password).2.ok = true →
          (Auth.register st name studentId password).1.da_users =
            st.da_users ++ [{ name := name, studentId := studentId, password := password }])) := by
  have hstrict : (∃ u ∈ db.users, strictEq u.studentId studentId = true) →
      (register db newId name studentId password).2.ok = false ∧
      (register db newId name studentId password).1.users = db.users := by
    rintro ⟨u, hu, he⟩
    rcases register_cases db newId name studentId password with
      ⟨hf, h⟩ | ⟨hf, hd, h⟩ | ⟨hf, hd, h⟩
    · simp [h, failResponse]
    · simp [h, failResponse]
    · rw [hd u hu] at he; cases he
  refine ⟨?_, ?_, ?_, ?_, ?_, hstrict, ?_, ?_⟩
  · rcases register_cases db newId name studentId password with
      ⟨hf, h⟩ | ⟨hf, hd, h⟩ | ⟨hf, hd, h⟩ <;> simp_all [anyFalsy, failResponse, okResponse]
  · rcases register_cases db newId name studentId password with
      ⟨hf, h⟩ | ⟨hf, hd, h⟩ | ⟨hf, hd, h⟩ <;> simp_all [anyFalsy, failResponse, okResponse]
  · rcases register_cases db newId name studentId password with
      ⟨hf, h⟩ | ⟨hf, hd, h⟩ | ⟨hf, hd, h⟩ <;> simp_all [anyFalsy, failResponse, okResponse]
  · rcases register_cases db newId name studentId password with
      ⟨hf, h⟩ | ⟨hf, hd, h⟩ | ⟨hf, hd, h⟩ <;> simp_all [anyFalsy, failResponse, okResponse]
  · rcases register_cases db newId name studentId password with
      ⟨hf, h⟩ | ⟨hf, hd, h⟩ | ⟨hf, hd, h⟩ <;> simp_all [anyFalsy, failResponse, okResponse]
  · rintro hs ⟨u, hu, he⟩
    exact hstrict ⟨u, hu, strictEq_of_eq_scalar he hs⟩
  · intro st
    refine ⟨?_, ?_, ?_⟩
    · rcases authRegister_cases st name studentId password with
        ⟨hf, h⟩ | ⟨hf, hd, h⟩ | ⟨hf, hd, h⟩ <;> simp_all [anyFalsy]
    · rcases authRegister_cases st name studentId password with
        ⟨hf, h⟩ | ⟨hf, hd, h⟩ | ⟨hf, hd, h⟩ <;> simp_all [anyFalsy]
    · rcases authRegister_cases st name studentId password with
        ⟨hf, h⟩ | ⟨hf, hd, h⟩ | ⟨hf, hd, h⟩ <;> simp_all [anyFalsy]

/-- The two outcomes of `login`. -/
theorem login_cases (db : DB) (studentId password : JSVal) :
    ((∀ u ∈ db.users, ¬ (strictEq u.studentId studentId = true ∧
        strictEq u.password password = true)) ∧
      login db studentId password = (db, failResponse 401 "Invalid credentials")) ∨
    ((∃ u ∈ db.users, strictEq u.studentId studentId = true ∧
        strictEq u.password password = true) ∧
      login db studentId password = (db, okResponse)) := by
  rcases find?_none_or_some
      (fun u => strictEq u.studentId studentId && strictEq u.password password) db.users with
    ⟨hn, hall⟩ | ⟨y, hy, hmem, hp⟩
  · refine Or.inl ⟨?_, by simp [login, hn]⟩
    intro u hu hboth
    have := hall u hu
    simp [hboth.1, hboth.2] at this
  · refine Or.inr ⟨⟨y, hmem, ?_⟩, by simp [login, hy]⟩
    simpa using hp

/-- The two outcomes of `Auth.login`. -/
theorem authLogin_cases (st : LocalStorage) (studentId password : JSVal) :
    ((∀ u ∈ st.da_users, ¬ (strictEq u.studentId studentId = true ∧
        strictEq u.password password = true)) ∧
      Auth.login st studentId password = (st, { ok := false, msg := some "Invalid credentials" })) ∨
    ((∃ u ∈ st.da_users, strictEq u.studentId studentId = true ∧
        strictEq u.password password = true) ∧
      (Auth.login st studentId password).2 = { ok := true, msg := none } ∧
      (Auth.login st studentId password).1.da_users = st.da_users) := by
  rcases find?_none_or_some
      (fun u : LocalUser => strictEq u.studentId studentId && strictEq u.password password)
      st.da_users with
    ⟨hn, hall⟩ | ⟨y, hy, hmem, hp⟩
  · refine Or.inl ⟨?_, by simp [Auth.login, hn]⟩
    intro u hu hboth
    have := hall u hu
    simp [hboth.1, hboth.2] at this
  · refine Or.inr ⟨⟨y, hmem, ?_⟩, by simp [Auth.login, hy], by simp [Auth.login, hy]⟩
    simpa using hp

/-- C3. Login succeeds exactly when some stored user has both a strictly equal studentId and a
strictly equal password, and otherwise answers 401 "Invalid credentials"; when every stored user
differs from the request in the studentId or in the password it fails; the store is never
changed.  `Auth.login` of the browser prototype succeeds in the same cases and leaves its users
array as it was. -/
theorem login_contract (db : DB) (studentId password : JSVal) :
    ((login db studentId password).2.ok = true ↔
        ∃ u ∈ db.users, strictEq u.studentId studentId = true ∧
          strictEq u.password password = true) ∧
    ((login db studentId password).2.ok = true → (login db studentId password).2.status = 200) ∧
    ((login db studentId password).2.ok = false →
        (login db studentId password).2 = failResponse 401 "Invalid credentials") ∧
    ((∀ u ∈ db.users, u.studentId ≠ studentId ∨ u.password ≠ password) →
        (login db studentId password).2.status = 401) ∧
    (login db studentId password).1 = db ∧
    (∀ st : LocalStorage,
      ((Auth.login st studentId password).2.ok = true ↔
          ∃ u ∈ st.da_users, strictEq u.studentId studentId = true ∧
            strictEq u.password password = true) ∧
      (Auth.login st studentId password).1.da_users = st.da_users) := by
  refine ⟨?_, ?_, ?_, ?_, ?_, ?_⟩
  · rcases login_cases db studentId password with ⟨hn, h⟩ | ⟨hs, h⟩
    · simp only [h, failResponse]
      simpa using hn
    · simp only [h, okResponse]
      simpa using hs
  · rcases login_cases db studentId password with ⟨hn, h⟩ | ⟨hs, h⟩ <;>
      simp [h, failResponse, okResponse]
  · rcases login_cases db studentId password with ⟨hn, h⟩ | ⟨hs, h⟩ <;>
      simp [h, failResponse, okResponse]
  · intro hall
    rcases login_cases db studentId password with ⟨hn, h⟩ | ⟨⟨u, hu, h1, h2⟩, h⟩
    · simp [h, failResponse]
    · rcases hall u hu with h' | h'
      · exact absurd ((strictEq_true_iff _ _).1 h1).1 h'
      · exact absurd ((strictEq_true_iff _ _).1 h2).1 h'
  · rcases login_cases db studentId password with ⟨hn, h⟩ | ⟨hs, h⟩ <;> simp [h]
  · intro st
    rcases authLogin_cases st studentId password with ⟨hn, h⟩ | ⟨hs, h, hu⟩
    · refine ⟨?_, by simp [h]⟩
      simp only [h]
      simpa using hn
    · refine ⟨?_, hu⟩
      simp only [h]
      simpa using hs

/-! ## Uniqueness of student identifiers -/

theorem register_users (db : DB) (newId : String) (name studentId password : JSVal) :
    (register db newId name studentId password).1.users = db.users ∨
    ((∀ u ∈ db.users, strictEq u.studentId studentId = false) ∧
      (register db newId name studentId password).1.users =
        db.users ++ [{ id := newId, name := name, studentId := studentId,
                       password := password }]) := by
  rcases register_cases db newId name studentId password with
    ⟨_, h⟩ | ⟨_, _, h⟩ | ⟨_, hd, h⟩
  · exact Or.inl (by simp [h])
  · exact Or.inl (by simp [h])
  · exact Or.inr ⟨hd, by simp [h]⟩

theorem step_users (db : DB) (r : Request) :
    (step db r).users = db.users ∨
    ∃ u : User, (∀ v ∈ db.users, strictEq v.studentId u.studentId = false) ∧
      (step db r).users = db.users ++ [u] := by
  cases r with
  | register newId name studentId password =>
    rcases register_users db newId name studentId password with h | ⟨hd, h⟩
    · exact Or.inl h
    · exact Or.inr ⟨_, hd, h⟩
  | login studentId password =>
    left
    rcases login_cases db studentId password with ⟨_, h⟩ | ⟨_, h⟩ <;> simp [step, h]
  | getUser studentId =>
    left
    simp only [step, getUser]
    split <;> rfl
  | list cat search price => exact Or.inl rfl
  | get id =>
    left
    simp only [step, getListing]
    split <;> rfl
  | create now createdAt files title desc price category studentId =>
    left
    simp only [step, createListing]
    split <;> rfl
  | update id files title desc price category =>
    left
    simp only [step, updateListing]
    split <;> rfl
  | delete id => exact Or.inl rfl

theorem ne_of_strictEq_false {a b : JSVal} (h : strictEq a b = false)
    (hs : isScalarId a = true) : a ≠ b := by
  intro he
  subst he
  cases a <;> simp [strictEq, isScalarId] at h hs

theorem step_unique (db : DB) (r : Request) (h : UniqueScalarIds db) :
    UniqueScalarIds (step db r) := by
  unfold UniqueScalarIds at *
  rcases step_users db r with he | ⟨u, hu, he⟩
  · rw [he]; exact h
  · rw [he, List.pairwise_append]
    refine ⟨h, List.pairwise_singleton _ _, ?_⟩
    intro a ha b hb hs
    rw [List.mem_singleton] at hb
    subst hb
    exact ne_of_strictEq_false (hu a ha) hs

theorem run_unique (rs : List Request) :
    ∀ db : DB, UniqueScalarIds db → UniqueScalarIds (run db rs) := by
  induction rs with
  | nil => intro db h; exact h
  | cons r rs ih =>
    intro db h
    exact ih (step db r) (step_unique db r h)

/-- C2, counterexample. Two registrations whose studentId is the array `[1]` are both accepted,
`===` being false on two arrays, and the users collection then holds the same studentId
twice. -/
theorem duplicate_array_ids :
    (run initDB arrayIdRegistrations).users.map User.studentId = [.object "1", .object "1"] ∧
    ¬ ((run initDB arrayIdRegistrations).users.map User.studentId).Nodup := by
  decide

/-- C2, amended. In every store reached from the initial store `{ users: [], listings: [] }` by
a finite sequence of register, login, user-lookup, list, get, create, update and delete requests,
no two entries of the users collection at different positions have the same string, number or
boolean as studentId: the stored studentIds of these kinds are without duplicate. -/
theorem studentIds_unique (rs : List Request) :
    (run initDB rs).users.Pairwise
      (fun a b => isScalarId a.studentId = true → a.studentId ≠ b.studentId) ∧
    (((run initDB rs).users.map User.studentId).filter isScalarId).Nodup := by
  have h : UniqueScalarIds (run initDB rs) :=
    run_unique rs initDB (by simp [UniqueScalarIds, initDB])
  refine ⟨h, ?_⟩
  have hm : ((run initDB rs).users.map User.studentId).Pairwise
      (fun x y => isScalarId x = true → x ≠ y) := by
    rw [List.pairwise_map]
    exact h
  have hf : (((run initDB rs).users.map User.studentId).filter isScalarId).Pairwise
      (fun x y => isScalarId x = true → x ≠ y) :=
    List.Pairwise.sublist (List.filter_sublist _) hm
  refine List.Pairwise.imp_of_mem ?_ hf
  intro x y hx _ hxy
  exact hxy (List.mem_filter.1 hx).2

/-! ## The list query -/

theorem includesChars_iff (s q : List Char) : includesChars s q = true ↔ q <:+: s := by
  induction s with
  | nil =>
    cases q with
    | nil => simp [includesChars]
    | cons a t => simp [includesChars]
  | cons c t ih =>
    simp only [includesChars, Bool.or_eq_true, ih, List.isPrefixOf_iff_prefix,
      List.infix_cons_iff]

theorem catStage_eq (cat : JSVal) (items : List Listing) :
    (if truthy cat then items.filter (fun i => strictEq i.category cat) else items) =
      items.filter (catAllows cat) := by
  by_cases h : truthy cat = true
  · have e : catAllows cat = fun i => strictEq i.category cat := by
      funext l
      simp only [catAllows, h]
      cases cat <;> cases hc : l.category <;> simp [strictEq]
    simp [h, e]
  · have e : catAllows cat = fun _ => true := by
      funext l
      simp [catAllows, h]
    simp [h, e]

theorem searchStage_eq (rt : Runtime) (search : JSVal) (items : List Listing) :
    (if truthy search then
      (match search with
        | .str s => some (items.filter (matchesSearch rt (rt.toLowerCase s)))
        | _ => none)
      else some items) =
      if searchThrows search then none else some (items.filter (searchAllows rt search)) := by
  have htrue : (fun _ : Listing => true) = searchAllows rt search →
      items.filter (searchAllows rt search) = items := by
    intro e
    rw [← e]
    simp
  cases search with
  | undefined =>
    rw [htrue (by funext l; simp [searchAllows])]
    simp [truthy, searchThrows]
  | null =>
    rw [htrue (by funext l; simp [searchAllows])]
    simp [truthy, searchThrows]
  | bool b =>
    rw [htrue (by funext l; simp [searchAllows])]
    cases b <;> simp [truthy, searchThrows]
  | num q =>
    rw [htrue (by funext l; simp [searchAllows])]
    by_cases hq : q = 0
    · simp [truthy, searchThrows, hq]
    · simp [truthy, searchThrows, hq]
  | object t => simp [truthy, searchThrows]
  | str s =>
    by_cases hs : s = ""
    · subst hs
      rw [htrue (by funext l; simp [searchAllows])]
      simp [truthy, searchThrows]
    · have e : searchAllows rt (.str s) = matchesSearch rt (rt.toLowerCase s) := by
        funext l
        have := includesChars_iff
          (rt.toLowerCase (toStr rt l.title ++ " " ++ toStr rt l.desc)).data (rt.toLowerCase s).data
        simp only [searchAllows, matchesSearch, includes, hs, false_or]
        by_cases hi : (rt.toLowerCase s).data <:+:
            (rt.toLowerCase (toStr rt l.title ++ " " ++ toStr rt l.desc)).data
        · simp [hi, this.2 hi]
        · have hf : includesChars
              (rt.toLowerCase (toStr rt l.title ++ " " ++ toStr rt l.desc)).data
              (rt.toLowerCase s).data = false := by
            rw [← Bool.not_eq_true, this]; exact hi
          simp [hi, hf]
      simp [truthy, searchThrows, hs, e]

theorem priceStage_eq (price : JSVal) (items : List Listing) :
    (if truthy price then
      (if strictEq price (.str "200+") then
        ((if strictEq price (.str "50-200") then
          ((if strictEq price (.str "0-50") then items.filter priceLow else items)).filter priceMid
          else (if strictEq price (.str "0-50") then items.filter priceLow else items))).filter
            priceHigh
       else (if strictEq price (.str "50-200") then
          ((if strictEq price (.str "0-50") then items.filter priceLow else items)).filter priceMid
          else (if strictEq price (.str "0-50") then items.filter priceLow else items)))
     else items) = items.filter (priceAllows price) := by
  have hother : (∀ p, price ≠ .str p) → priceAllows price = fun _ => true := by
    intro h
    funext l
    cases price <;> simp [priceAllows] at h ⊢
  cases price with
  | str p =>
    by_cases h1 : p = "0-50"
    · subst h1
      have e : priceAllows (.str "0-50") = priceLow := by
        funext l; simp [priceAllows]
      rw [e]
      have e1 : strictEq (.str "0-50") (.str "200+") = false := by decide
      have e2 : strictEq (.str "0-50") (.str "50-200") = false := by decide
      have e3 : strictEq (.str "0-50") (.str "0-50") = true := by decide
      have e4 : truthy (.str "0-50") = true := by decide
      simp [e1, e2, e3, e4]
    · by_cases h2 : p = "50-200"
      · subst h2
        have e : priceAllows (.str "50-200") = priceMid := by
          funext l
          have n1 : ¬ ("50-200" = "0-50") := by decide
          simp [priceAllows, n1]
        rw [e]
        have e1 : strictEq (.str "50-200") (.str "200+") = false := by decide
        have e2 : strictEq (.str "50-200") (.str "50-200") = true := by decide
        have e3 : strictEq (.str "50-200") (.str "0-50") = false := by decide
        have e4 : truthy (.str "50-200") = true := by decide
        simp [e1, e2, e3, e4]
      · by_cases h3 : p = "200+"
        · subst h3
          have e : priceAllows (.str "200+") = priceHigh := by
            funext l
            have n1 : ¬ ("200+" = "0-50") := by decide
            have n2 : ¬ ("200+" = "50-200") := by decide
            simp [priceAllows, n1, n2]
          rw [e]
          have e1 : strictEq (.str "200+") (.str "200+") = true := by decide
          have e2 : strictEq (.str "200+") (.str "50-200") = false := by decide
          have e3 : strictEq (.str "200+") (.str "0-50") = false := by decide
          have e4 : truthy (.str "200+") = true := by decide
          simp [e1, e2, e3, e4]
        · have e : priceAllows (.str p) = fun _ => true := by
            funext l; simp [priceAllows, h1, h2, h3]
          rw [e]
          have e1 : strictEq (.str p) (.str "200+") = false := by simp [strictEq, h3]
          have e2 : strictEq (.str p) (.str "50-200") = false := by simp [strictEq, h2]
          have e3 : strictEq (.str p) (.str "0-50") = false := by simp [strictEq, h1]
          simp [e1, e2, e3]
  | undefined => rw [hother (by simp)]; simp [strictEq]
  | null => rw [hother (by simp)]; simp [strictEq]
  | bool b => rw [hother (by simp)]; simp [strictEq]
  | num q => rw [hother (by simp)]; simp [strictEq]
  | object t => rw [hother (by simp)]; simp [strictEq]

/-- The list handler throws on a truthy `search` that is not a string and otherwise applies the
three filters one after the other. -/
theorem listListings_eq (rt : Runtime) (db : DB) (cat search price : JSVal) :
    listListings rt db cat search price =
      if searchThrows search then none
      else some (((db.listings.filter (catAllows cat)).filter (searchAllows rt search)).filter
        (priceAllows price)) := by
  unfold listListings
  simp only [catStage_eq, searchStage_eq]
  by_cases h : searchThrows search = true
  · simp [h]
  · simp only [h, Bool.false_eq_true, if_false, Option.map_some']
    rw [← priceStage_eq]

theorem list_chain (rt : Runtime) (db : DB) (c₁ s₁ p₁ c₂ s₂ p₂ c₃ s₃ p₃ : JSVal) :
    ((listListings rt db c₁ s₁ p₁).bind fun a =>
      (listListings rt ⟨db.users, a⟩ c₂ s₂ p₂).bind fun b =>
        listListings rt ⟨db.users, b⟩ c₃ s₃ p₃) =
      if searchThrows s₁ || searchThrows s₂ || searchThrows s₃ then none
      else some (db.listings.filter fun l =>
        (catAllows c₁ l && searchAllows rt s₁ l && priceAllows p₁ l) &&
        (catAllows c₂ l && searchAllows rt s₂ l && priceAllows p₂ l) &&
        (catAllows c₃ l && searchAllows rt s₃ l && priceAllows p₃ l)) := by
  simp only [listListings_eq]
  by_cases h1 : searchThrows s₁ = true
  · simp [h1]
  · by_cases h2 : searchThrows s₂ = true
    · simp [h1, h2]
    · by_cases h3 : searchThrows s₃ = true
      · simp [h1, h2, h3]
      · simp only [h1, h2, h3, Bool.false_eq_true, if_false, Option.some_bind, Bool.or_self,
          List.filter_filter]
        congr 2
        funext l
        cases catAllows c₁ l <;> cases searchAllows rt s₁ l <;> cases priceAllows p₁ l <;>
          cases catAllows c₂ l <;> cases searchAllows rt s₂ l <;> cases priceAllows p₂ l <;>
          cases catAllows c₃ l <;> cases searchAllows rt s₃ l <;> cases priceAllows p₃ l <;> rfl

/-- On the sample store, for every runtime: the search `BIKE` returns the bike, whose title is
`Bike`; category `sports`, search `Road` and bucket `0-50` together return it too; and the
search `undefined` returns the textbook, which has no description. -/
theorem search_sample (rt : Runtime) :
    listListings rt sampleDB .undefined (.str "BIKE") .undefined = some [sampleBike] ∧
    listListings rt sampleDB (.str "sports") (.str "Road") (.str "0-50") = some [sampleBike] ∧
    listListings rt sampleDB .undefined (.str "undefined") .undefined = some [sampleTextbook] := by
  have e1 : toStr rt sampleBike.title ++ " " ++ toStr rt sampleBike.desc =
      "Bike Red road bike" := by
    simp only [sampleBike, toStr]
    decide
  have e2 : toStr rt sampleTextbook.title ++ " " ++ toStr rt sampleTextbook.desc =
      "Calculus textbook undefined" := by
    simp only [sampleTextbook, toStr]
    decide
  have e3 : toStr rt sampleLaptop.title ++ " " ++ toStr rt sampleLaptop.desc =
      "Laptop 13 inch" := by
    simp only [sampleLaptop, toStr]
    decide
  have l1 : rt.toLowerCase "Bike Red road bike" = "bike red road bike" := by
    rw [rt.toLowerCase_ascii _ (by decide)]; decide
  have l2 : rt.toLowerCase "Calculus textbook undefined" = "calculus textbook undefined" := by
    rw [rt.toLowerCase_ascii _ (by decide)]; decide
  have l3 : rt.toLowerCase "Laptop 13 inch" = "laptop 13 inch" := by
    rw [rt.toLowerCase_ascii _ (by decide)]; decide
  have q1 : rt.toLowerCase "BIKE" = "bike" := by
    rw [rt.toLowerCase_ascii _ (by decide)]; decide
  have q2 : rt.toLowerCase "Road" = "road" := by
    rw [rt.toLowerCase_ascii _ (by decide)]; decide
  have q3 : rt.toLowerCase "undefined" = "undefined" := by
    rw [rt.toLowerCase_ascii _ (by decide)]; decide
  refine ⟨?_, ?_, ?_⟩
  · simp only [listListings, sampleDB, truthy, matchesSearch, List.filter, e1, e2, e3, l1, l2, l3,
      q1]
    decide
  · simp only [listListings, sampleDB, truthy, matchesSearch, List.filter, e1, e2, e3, l1, l2, l3,
      q2]
    decide
  · simp only [listListings, sampleDB, truthy, matchesSearch, List.filter, e1, e2, e3, l1, l2, l3,
      q3]
    decide

/-- C5, counterexample. For the query `search=a&search=b` the parameter is the array
`["a", "b"]`; `search.toLowerCase()` throws and the handler returns no listings at all. -/
theorem list_throws_on_array_search :
    listListings asciiRuntime sampleDB .undefined (.object "a,b") .undefined = none ∧
    ¬ ∃ items, listListings asciiRuntime sampleDB .undefined (.object "a,b") .undefined =
      some items := by
  constructor
  · rfl
  · rintro ⟨items, h⟩
    cases h

/-- C5, amended. Whenever `search` is absent, empty or a string, the list handler returns
exactly the listings that satisfy every supplied restriction (category strictly equal to `cat`,
lowercased `search` a substring of the lowercased title, space and description, price in the
named bucket), in store order; an absent or empty parameter restricts nothing; applying the
three filters one after another in any of the six orders gives the same result, and a listing is
returned exactly when each single-filter query returns it.  When `search` is a non-empty value
that is not a string, an array or object, the handler throws and returns nothing, in every
order of application.  On the sample store the search `BIKE` finds the title `Bike`. -/
theorem list_filters_combine (rt : Runtime) (db : DB) (cat search price : JSVal) :
    (searchThrows search = false →
      listListings rt db cat search price =
        some (db.listings.filter
          (fun l => catAllows cat l && searchAllows rt search l && priceAllows price l))) ∧
    (searchThrows search = true → listListings rt db cat search price = none) ∧
    (∀ t, searchThrows (.object t) = true) ∧
    (∀ s, searchThrows (.str s) = false) ∧ searchThrows .undefined = false ∧
    (∀ items, listListings rt db cat search price = some items → items.Sublist db.listings) ∧
    listListings rt db .undefined .undefined .undefined = some db.listings ∧
    listListings rt db (.str "") (.str "") (.str "") = some db.listings ∧
    listListings rt db (.str "") search price = listListings rt db .undefined search price ∧
    listListings rt db cat (.str "") price = listListings rt db cat .undefined price ∧
    listListings rt db cat search (.str "") = listListings rt db cat search .undefined ∧
    ((listListings rt db cat .undefined .undefined).bind fun a =>
      (listListings rt ⟨db.users, a⟩ .undefined search .undefined).bind fun b =>
        listListings rt ⟨db.users, b⟩ .undefined .undefined price) =
      listListings rt db cat search price ∧
    ((listListings rt db cat .undefined .undefined).bind fun a =>
      (listListings rt ⟨db.users, a⟩ .undefined .undefined price).bind fun b =>
        listListings rt ⟨db.users, b⟩ .undefined search .undefined) =
      listListings rt db cat search price ∧
    ((listListings rt db .undefined search .undefined).bind fun a =>
      (listListings rt ⟨db.users, a⟩ cat .undefined .undefined).bind fun b =>
        listListings rt ⟨db.users, b⟩ .undefined .undefined price) =
      listListings rt db cat search price ∧
    ((listListings rt db .undefined search .undefined).bind fun a =>
      (listListings rt ⟨db.users, a⟩ .undefined .undefined price).bind fun b =>
        listListings rt ⟨db.users, b⟩ cat .undefined .undefined) =
      listListings rt db cat search price ∧
    ((listListings rt db .undefined .undefined price).bind fun a =>
      (listListings rt ⟨db.users, a⟩ cat .undefined .undefined).bind fun b =>
        listListings rt ⟨db.users, b⟩ .undefined search .undefined) =
      listListings rt db cat search price ∧
    ((listListings rt db .undefined .undefined price).bind fun a =>
      (listListings rt ⟨db.users, a⟩ .undefined search .undefined).bind fun b =>
        listListings rt ⟨db.users, b⟩ cat .undefined .undefined) =
      listListings rt db cat search price ∧
    (∀ items a b c, listListings rt db cat search price = some items →
      listListings rt db cat .undefined .undefined = some a →
      listListings rt db .undefined search .undefined = some b →
      listListings rt db .undefined .undefined price = some c →
      ∀ l, l ∈ items ↔ l ∈ a ∧ l ∈ b ∧ l ∈ c) ∧
    (listListings rt sampleDB .undefined (.str "BIKE") .undefined = some [sampleBike] ∧
      listListings rt sampleDB (.str "sports") (.str "Road") (.str "0-50") = some [sampleBike] ∧
      listListings rt sampleDB .undefined (.str "undefined") .undefined =
        some [sampleTextbook]) := by
  have hc : catAllows .undefined = fun _ => true := by funext l; simp [catAllows, truthy]
  have hs : searchAllows rt .undefined = fun _ => true := by funext l; simp [searchAllows]
  have hp : priceAllows .undefined = fun _ => true := by funext l; simp [priceAllows]
  have hc' : catAllows (.str "") = fun _ => true := by funext l; simp [catAllows, truthy]
  have hs' : searchAllows rt (.str "") = fun _ => true := by funext l; simp [searchAllows]
  have hp' : priceAllows (.str "") = fun _ => true := by funext l; simp [priceAllows]
  have hu : searchThrows .undefined = false := rfl
  have hu' : searchThrows (.str "") = false := rfl
  have hone : listListings rt db cat search price =
      if searchThrows search then none
      else some (db.listings.filter
        (fun l => catAllows cat l && searchAllows rt search l && priceAllows price l)) := by
    rw [listListings_eq, List.filter_filter, List.filter_filter]
    congr 3
    funext l
    cases catAllows cat l <;> cases searchAllows rt search l <;> cases priceAllows price l <;> rfl
  have horder : ∀ f : Listing → Bool,
      (f = fun l => catAllows cat l && searchAllows rt search l && priceAllows price l) →
      (if searchThrows search then none else some (db.listings.filter f)) =
        listListings rt db cat search price := by
    intro f hf
    rw [hone, hf]
  refine ⟨?_, ?_, fun t => rfl, fun s => rfl, rfl, ?_, ?_, ?_, ?_, ?_, ?_,
    ?_, ?_, ?_, ?_, ?_, ?_, ?_, search_sample rt⟩
  · intro h
    rw [hone, h]
    simp
  · intro h
    rw [hone, h]
    simp
  · intro items h
    rw [listListings_eq] at h
    by_cases ht : searchThrows search = true
    · simp [ht] at h
    · simp only [ht, Bool.false_eq_true, if_false, Option.some.injEq] at h
      rw [← h]
      exact (List.filter_sublist _).trans ((List.filter_sublist _).trans (List.filter_sublist _))
  · simp [listListings_eq, hc, hs, hp, hu]
  · simp [listListings_eq, hc', hs', hp', hu']
  · simp [listListings_eq, hc, hc']
  · simp [listListings_eq, hs, hs', hu, hu']
  · simp [listListings_eq, hp, hp']
  · rw [list_chain]
    simp only [hu, Bool.or_false, Bool.false_or, hc, hs, hp, Bool.and_true, Bool.true_and]
    exact horder _ (by funext l; rfl)
  · rw [list_chain]
    simp only [hu, Bool.or_false, Bool.false_or, hc, hs, hp, Bool.and_true, Bool.true_and]
    exact horder _ (by
      funext l
      cases catAllows cat l <;> cases searchAllows rt search l <;> cases priceAllows price l <;>
        rfl)
  · rw [list_chain]
    simp only [hu, Bool.or_false, Bool.false_or, hc, hs, hp, Bool.and_true, Bool.true_and]
    exact horder _ (by
      funext l
      cases catAllows cat l <;> cases searchAllows rt search l <;> cases priceAllows price l <;>
        rfl)
  · rw [list_chain]
    simp only [hu, Bool.or_false, Bool.false_or, hc, hs, hp, Bool.and_true, Bool.true_and]
    exact horder _ (by
      funext l
      cases catAllows cat l <;> cases searchAllows rt search l <;> cases priceAllows price l <;>
        rfl)
  · rw [list_chain]
    simp only [hu, Bool.or_false, Bool.false_or, hc, hs, hp, Bool.and_true, Bool.true_and]
    exact horder _ (by
      funext l
      cases catAllows cat l <;> cases searchAllows rt search l <;> cases priceAllows price l <;>
        rfl)
  · rw [list_chain]
    simp only [hu, Bool.or_false, Bool.false_or, hc, hs, hp, Bool.and_true, Bool.true_and]
    exact horder _ (by
      funext l
      cases catAllows cat l <;> cases searchAllows rt search l <;> cases priceAllows price l <;>
        rfl)
  · intro items a b c h ha hb hcc l
    rw [listListings_eq] at h ha hb hcc
    by_cases ht : searchThrows search = true
    · simp [ht] at h
    · simp only [ht, hu, Bool.false_eq_true, if_false, Option.some.injEq, hc, hs, hp] at h ha hb hcc
      subst h ha hb hcc
      simp only [List.mem_filter]
      tauto

/-! ## Price buckets -/

/-- On a numeric price exactly one of the three bucket tests holds. -/
theorem bucket_trichotomy (l : Listing) (q : ℚ) (h : l.price = .num q) :
    (priceLow l = true ∧ priceMid l = false ∧ priceHigh l = false) ∨
    (priceLow l = false ∧ priceMid l = true ∧ priceHigh l = false) ∨
    (priceLow l = false ∧ priceMid l = false ∧ priceHigh l = true) := by
  simp only [priceLow, priceMid, priceHigh, h, toNumber, JSNum.le, JSNum.lt]
  rcases le_or_lt q 50 with h1 | h1
  · left
    have h2 : ¬ (50 < q) := not_lt.2 h1
    have h3 : ¬ (200 < q) := fun h => h2 (lt_trans (by norm_num) h)
    simp [h1, h2, h3]
  · rcases le_or_lt q 200 with h2 | h2
    · right; left
      have h3 : ¬ (q ≤ 50) := not_le.2 h1
      have h4 : ¬ (200 < q) := not_lt.2 h2
      simp [h1, h2, h3, h4]
    · right; right
      have h3 : ¬ (q ≤ 50) := not_le.2 h1
      have h4 : ¬ (q ≤ 200) := not_le.2 h2
      simp [h2, h3, h4]

theorem buckets_perm (ls : List Listing) (hnum : ∀ l ∈ ls, ∃ q : ℚ, l.price = .num q) :
    (ls.filter priceLow ++ ls.filter priceMid ++ ls.filter priceHigh).Perm ls := by
  induction ls with
  | nil => simp
  | cons x xs ih =>
    have ih' := ih (fun l hl => hnum l (List.mem_cons_of_mem _ hl))
    obtain ⟨q, hq⟩ := hnum x (List.mem_cons_self _ _)
    rcases bucket_trichotomy x q hq with ⟨a, b, c⟩ | ⟨a, b, c⟩ | ⟨a, b, c⟩
    · simp only [List.filter_cons, a, b, c, if_true, Bool.false_eq_true, if_false,
        List.cons_append]
      exact List.Perm.cons x ih'
    · simp only [List.filter_cons, a, b, c, if_true, Bool.false_eq_true, if_false,
        List.append_assoc, List.cons_append]
      refine List.perm_middle.trans (List.Perm.cons x ?_)
      simpa [List.append_assoc] using ih'
    · simp only [List.filter_cons, a, b, c, if_true, Bool.false_eq_true, if_false]
      refine List.perm_middle.trans (List.Perm.cons x ?_)
      exact ih'

theorem listListings_price (rt : Runtime) (db : DB) (p : String) :
    listListings rt db .undefined .undefined (.str p) =
      some (db.listings.filter (priceAllows (.str p))) := by
  have hc : catAllows .undefined = fun _ => true := by funext l; simp [catAllows, truthy]
  have hs : searchAllows rt .undefined = fun _ => true := by funext l; simp [searchAllows]
  have hu : searchThrows .undefined = false := rfl
  simp [listListings_eq, hc, hs, hu]

theorem priceAllows_low : priceAllows (.str "0-50") = priceLow := by
  funext l; simp [priceAllows]

theorem priceAllows_mid : priceAllows (.str "50-200") = priceMid := by
  funext l
  have e : ¬ ("50-200" = "0-50") := by decide
  simp [priceAllows, e]

theorem priceAllows_high : priceAllows (.str "200+") = priceHigh := by
  funext l
  have e1 : ¬ ("200+" = "0-50") := by decide
  have e2 : ¬ ("200+" = "50-200") := by decide
  simp [priceAllows, e1, e2]

/-- C4. On a listing collection whose prices are numbers, the queries `price=0-50`,
`price=50-200` and `price=200+` (no other filter) each return a list, and every listing is
returned by exactly one of them: the three results are pairwise disjoint and together are a
rearrangement of the collection.  A listing priced exactly 50 is returned by `0-50` and not by
`50-200`; one priced exactly 200 is returned by `50-200` and not by `200+`. -/
theorem price_buckets_partition (rt : Runtime) (db : DB)
    (hnum : ∀ l ∈ db.listings, ∃ q : ℚ, l.price = .num q) :
    ∃ low mid high : List Listing,
      listListings rt db .undefined .undefined (.str "0-50") = some low ∧
      listListings rt db .undefined .undefined (.str "50-200") = some mid ∧
      listListings rt db .undefined .undefined (.str "200+") = some high ∧
      (∀ l ∈ db.listings,
        (l ∈ low ∧ l ∉ mid ∧ l ∉ high) ∨ (l ∉ low ∧ l ∈ mid ∧ l ∉ high) ∨
          (l ∉ low ∧ l ∉ mid ∧ l ∈ high)) ∧
      low.Disjoint mid ∧ low.Disjoint high ∧ mid.Disjoint high ∧
      (low ++ mid ++ high).Perm db.listings ∧
      (∀ l ∈ db.listings, l.price = .num 50 → l ∈ low ∧ l ∉ mid) ∧
      (∀ l ∈ db.listings, l.price = .num 200 → l ∈ mid ∧ l ∉ high) := by
  refine ⟨db.listings.filter priceLow, db.listings.filter priceMid,
    db.listings.filter priceHigh, ?_, ?_, ?_, ?_⟩
  · rw [listListings_price, priceAllows_low]
  · rw [listListings_price, priceAllows_mid]
  · rw [listListings_price, priceAllows_high]
  have key : ∀ l ∈ db.listings,
      (priceLow l = true ∧ priceMid l = false ∧ priceHigh l = false) ∨
      (priceLow l = false ∧ priceMid l = true ∧ priceHigh l = false) ∨
      (priceLow l = false ∧ priceMid l = false ∧ priceHigh l = true) := by
    intro l hl
    obtain ⟨q, hq⟩ := hnum l hl
    exact bucket_trichotomy l q hq
  refine ⟨?_, ?_, ?_, ?_, buckets_perm db.listings hnum, ?_, ?_⟩
  · intro l hl
    rcases key l hl with ⟨a, b, c⟩ | ⟨a, b, c⟩ | ⟨a, b, c⟩ <;>
      simp [List.mem_filter, hl, a, b, c]
  · intro l h1 h2
    rw [List.mem_filter] at h1 h2
    rcases key l h1.1 with ⟨a, b, c⟩ | ⟨a, b, c⟩ | ⟨a, b, c⟩ <;> simp_all
  · intro l h1 h2
    rw [List.mem_filter] at h1 h2
    rcases key l h1.1 with ⟨a, b, c⟩ | ⟨a, b, c⟩ | ⟨a, b, c⟩ <;> simp_all
  · intro l h1 h2
    rw [List.mem_filter] at h1 h2
    rcases key l h1.1 with ⟨a, b, c⟩ | ⟨a, b, c⟩ | ⟨a, b, c⟩ <;> simp_all
  · intro l hl hp
    simp [List.mem_filter, hl, priceLow, priceMid, hp, toNumber, JSNum.le, JSNum.lt]
  · intro l hl hp
    simp [List.mem_filter, hl, priceHigh, priceMid, hp, toNumber, JSNum.le, JSNum.lt]
    norm_num

/-- C4 on the sample store, whose three prices are the numbers 50, 200 and 201: the three
queries return the bike, the textbook and the laptop. -/
theorem price_buckets_partition_witness :
    (∀ l ∈ sampleDB.listings, ∃ q : ℚ, l.price = .num q) ∧
    listListings asciiRuntime sampleDB .undefined .undefined (.str "0-50") =
      some [sampleBike] ∧
    listListings asciiRuntime sampleDB .undefined .undefined (.str "50-200") =
      some [sampleTextbook] ∧
    listListings asciiRuntime sampleDB .undefined .undefined (.str "200+") =
      some [sampleLaptop] ∧
    ∃ low mid high : List Listing,
      listListings asciiRuntime sampleDB .undefined .undefined (.str "0-50") = some low ∧
      listListings asciiRuntime sampleDB .undefined .undefined (.str "50-200") = some mid ∧
      listListings asciiRuntime sampleDB .undefined .undefined (.str "200+") = some high ∧
      (∀ l ∈ sampleDB.listings,
        (l ∈ low ∧ l ∉ mid ∧ l ∉ high) ∨ (l ∉ low ∧ l ∈ mid ∧ l ∉ high) ∨
          (l ∉ low ∧ l ∉ mid ∧ l ∈ high)) ∧
      low.Disjoint mid ∧ low.Disjoint high ∧ mid.Disjoint high ∧
      (low ++ mid ++ high).Perm sampleDB.listings ∧
      (∀ l ∈ sampleDB.listings, l.price = .num 50 → l ∈ low ∧ l ∉ mid) ∧
      (∀ l ∈ sampleDB.listings, l.price = .num 200 → l ∈ mid ∧ l ∉ high) :=
  have hnum : ∀ l ∈ sampleDB.listings, ∃ q : ℚ, l.price = .num q := by
    simp [sampleDB, sampleBike, sampleTextbook, sampleLaptop]
  ⟨hnum, by decide, by decide, by decide, price_buckets_partition asciiRuntime sampleDB hnum⟩

/-! ## Delete -/

theorem not_strictEq_fin (a : ℚ) (n : JSNum) :
    (!JSNum.strictEq (.fin a) n) = decide (n ≠ .fin a) := by
  by_cases h : n = .fin a
  · have : JSNum.strictEq (.fin a) n = true := (strictEq_fin_iff a n).2 h
    rw [this]
    simp [h]
  · have : JSNum.strictEq (.fin a) n = false := by
      rw [← Bool.not_eq_true, strictEq_fin_iff]; exact h
    simp [h, this]

theorem deleteListing_eq (db : DB) (id : String) :
    deleteListing db id =
      ({ db with listings :=
          db.listings.filter (fun l => decide (stringToNumber id ≠ .fin (l.id : ℚ))) },
        okResponse) := by
  simp only [deleteListing, not_strictEq_fin]

/-- C6. Delete removes exactly the listings whose numeric id equals the requested id: the new
collection is the old one filtered, so every other listing is kept, as often as it occurred and
in its original relative order; the users collection is untouched; when no listing has the id
the store is unchanged.  Deleting with the decimal digits of a stored listing's own id removes
that listing. -/
theorem delete_removes_matching (db : DB) (id : String) :
    (deleteListing db id).1.listings =
      db.listings.filter (fun l => decide (stringToNumber id ≠ .fin (l.id : ℚ))) ∧
    (deleteListing db id).1.listings.Sublist db.listings ∧
    (∀ l, l ∈ (deleteListing db id).1.listings ↔
      l ∈ db.listings ∧ stringToNumber id ≠ .fin (l.id : ℚ)) ∧
    (∀ l : Listing, stringToNumber id ≠ .fin (l.id : ℚ) →
      (deleteListing db id).1.listings.count l = db.listings.count l) ∧
    (∀ l : Listing, stringToNumber id = .fin (l.id : ℚ) →
      l ∉ (deleteListing db id).1.listings) ∧
    (deleteListing db id).1.users = db.users ∧
    ((∀ l ∈ db.listings, stringToNumber id ≠ .fin (l.id : ℚ)) →
      (deleteListing db id).1 = db) ∧
    (∀ l ∈ db.listings, l.id < 2 ^ 53 →
      l ∉ (deleteListing db (toString l.id)).1.listings ∧
      ∀ l' ∈ db.listings, l'.id ≠ l.id → l' ∈ (deleteListing db (toString l.id)).1.listings) := by
  have hown : ∀ l ∈ db.listings, l.id < 2 ^ 53 →
      l ∉ (deleteListing db (toString l.id)).1.listings ∧
      ∀ l' ∈ db.listings, l'.id ≠ l.id →
        l' ∈ (deleteListing db (toString l.id)).1.listings := by
    intro l _ hb
    rw [deleteListing_eq]
    simp only [List.mem_filter, stringToNumber_toString l.id hb, ne_eq, JSNum.fin.injEq,
      Nat.cast_inj, decide_eq_true_eq, not_true_eq_false, and_false, not_false_eq_true, true_and]
    intro l' hl' hne
    exact ⟨hl', fun h => hne h.symm⟩
  rw [deleteListing_eq]
  refine ⟨rfl, List.filter_sublist _, ?_, ?_, ?_, rfl, ?_, hown⟩
  · intro l
    simp [List.mem_filter]
  · intro l hl
    simp only [List.count_filter, hl, ne_eq, not_false_eq_true, decide_True]
  · intro l hl
    simp [List.mem_filter, hl]
  · intro hall
    have : db.listings.filter (fun l => decide (stringToNumber id ≠ .fin (l.id : ℚ))) =
        db.listings := by
      rw [List.filter_eq_self]
      intro l hl
      simpa using hall l hl
    rw [this]

/-- On the sample store the id `1700000000000.00001`, which `Number` rounds to 1700000000000,
deletes the bike, as does `1700000000000`; the id `1700000000001` deletes nothing. -/
theorem delete_rounds_id :
    (deleteListing sampleDB "1700000000000.00001").1.listings = [sampleTextbook, sampleLaptop] ∧
    (deleteListing sampleDB "1700000000000").1.listings = [sampleTextbook, sampleLaptop] ∧
    (deleteListing sampleDB "1700000000001").1 = sampleDB := by
  decide!

/-! ## Update -/

theorem applyUpdate_title (files : List String) (t d p c : JSVal) (l : Listing) :
    (applyUpdate files t d p c l).title = if truthy t then t else l.title := by
  unfold applyUpdate
  by_cases h1 : truthy t <;> by_cases h2 : truthy d <;> by_cases h3 : truthy p <;>
    by_cases h4 : truthy c <;> by_cases h5 : files.length ≠ 0 <;> simp [h1, h2, h3, h4, h5]

theorem applyUpdate_desc (files : List String) (t d p c : JSVal) (l : Listing) :
    (applyUpdate files t d p c l).desc = if truthy d then d else l.desc := by
  unfold applyUpdate
  by_cases h1 : truthy t <;> by_cases h2 : truthy d <;> by_cases h3 : truthy p <;>
    by_cases h4 : truthy c <;> by_cases h5 : files.length ≠ 0 <;> simp [h1, h2, h3, h4, h5]

theorem applyUpdate_price (files : List String) (t d p c : JSVal) (l : Listing) :
    (applyUpdate files t d p c l).price = if truthy p then (toNumber p).toJSON else l.price := by
  unfold applyUpdate
  by_cases h1 : truthy t <;> by_cases h2 : truthy d <;> by_cases h3 : truthy p <;>
    by_cases h4 : truthy c <;> by_cases h5 : files.length ≠ 0 <;> simp [h1, h2, h3, h4, h5]

theorem applyUpdate_category (files : List String) (t d p c : JSVal) (l : Listing) :
    (applyUpdate files t d p c l).category = if truthy c then c else l.category := by
  unfold applyUpdate
  by_cases h1 : truthy t <;> by_cases h2 : truthy d <;> by_cases h3 : truthy p <;>
    by_cases h4 : truthy c <;> by_cases h5 : files.length ≠ 0 <;> simp [h1, h2, h3, h4, h5]

theorem applyUpdate_media (files : List String) (t d p c : JSVal) (l : Listing) :
    (applyUpdate files t d p c l).media = if files = [] then l.media else mediaPaths files := by
  unfold applyUpdate
  by_cases h1 : truthy t <;> by_cases h2 : truthy d <;> by_cases h3 : truthy p <;>
    by_cases h4 : truthy c <;> by_cases h5 : files = [] <;> simp [h1, h2, h3, h4, h5]

theorem applyUpdate_all_falsy (t d p c : JSVal) (l : Listing) (h1 : truthy t = false)
    (h2 : truthy d = false) (h3 : truthy p = false) (h4 : truthy c = false) :
    applyUpdate [] t d p c l = l := by
  simp [applyUpdate, h1, h2, h3, h4]

theorem map_modify_of_fixed {α β : Type} (g : α → β) (f : α → α) (h : ∀ x, g (f x) = g x) :
    ∀ (l : List α) (n : Nat), (l.modify f n).map g = l.map g := by
  intro l
  induction l with
  | nil => intro n; simp
  | cons a t ih =>
    intro n
    cases n with
    | zero => simp [h]
    | succ k => simp [ih k]

/-- The two outcomes of `updateListing`. -/
theorem updateListing_cases (db : DB) (id : String) (files : List String)
    (t d p c : JSVal) :
    ((∀ l ∈ db.listings, stringToNumber id ≠ .fin (l.id : ℚ)) ∧
      updateListing db id files t d p c = (db, failResponse 404 "Not found")) ∨
    (∃ idx, db.listings.findIdx? (fun l => JSNum.strictEq (.fin l.id) (stringToNumber id)) =
        some idx ∧
      (∃ l ∈ db.listings, stringToNumber id = .fin (l.id : ℚ)) ∧
      updateListing db id files t d p c =
        ({ db with listings := db.listings.modify (applyUpdate files t d p c) idx },
          okResponse)) := by
  cases h : db.listings.findIdx? (fun l => JSNum.strictEq (.fin l.id) (stringToNumber id)) with
  | none =>
    left
    refine ⟨?_, by simp [updateListing, h]⟩
    intro l hl he
    rw [List.findIdx?_eq_none_iff] at h
    have := h l hl
    rw [(strictEq_fin_iff _ _).2 he] at this
    cases this
  | some idx =>
    right
    refine ⟨idx, rfl, ?_, by simp [updateListing, h]⟩
    have hs : (db.listings.findIdx? (fun l => JSNum.strictEq (.fin l.id) (stringToNumber id))).isSome := by
      simp [h]
    rw [List.findIdx?_isSome] at hs
    simp only [List.any_eq_true] at hs
    obtain ⟨l, hl, hp⟩ := hs
    exact ⟨l, hl, (strictEq_fin_iff _ _).1 hp⟩

/-- C7. An update keeps every field supplied as falsy: when `title`, `desc`, `price` or
`category` is absent, `null`, `0`, the empty string or any other falsy value, that field of every
stored listing is what it was, and without uploaded files so is `media`; an update whose four
fields are all falsy and that carries no files leaves the whole store unchanged. -/
theorem update_keeps_falsy_fields (db : DB) (id : String) (files : List String)
    (title desc price category : JSVal) :
    (truthy .undefined = false ∧ truthy .null = false ∧ truthy (.num 0) = false ∧
      truthy (.str "") = false) ∧
    (truthy title = false →
      (updateListing db id files title desc price category).1.listings.map Listing.title =
        db.listings.map Listing.title) ∧
    (truthy desc = false →
      (updateListing db id files title desc price category).1.listings.map Listing.desc =
        db.listings.map Listing.desc) ∧
    (truthy price = false →
      (updateListing db id files title desc price category).1.listings.map Listing.price =
        db.listings.map Listing.price) ∧
    (truthy category = false →
      (updateListing db id files title desc price category).1.listings.map Listing.category =
        db.listings.map Listing.category) ∧
    (files = [] →
      (updateListing db id files title desc price category).1.listings.map Listing.media =
        db.listings.map Listing.media) ∧
    (truthy title = false → truthy desc = false → truthy price = false →
      truthy category = false → files = [] →
      (updateListing db id files title desc price category).1 = db) := by
  refine ⟨by simp [truthy], ?_, ?_, ?_, ?_, ?_, ?_⟩
  · intro hf
    rcases updateListing_cases db id files title desc price category with
      ⟨_, h⟩ | ⟨idx, _, _, h⟩
    · simp [h]
    · rw [h]
      exact map_modify_of_fixed _ _ (fun x => by simp [applyUpdate_title, hf]) _ _
  · intro hf
    rcases updateListing_cases db id files title desc price category with
      ⟨_, h⟩ | ⟨idx, _, _, h⟩
    · simp [h]
    · rw [h]
      exact map_modify_of_fixed _ _ (fun x => by simp [applyUpdate_desc, hf]) _ _
  · intro hf
    rcases updateListing_cases db id files title desc price category with
      ⟨_, h⟩ | ⟨idx, _, _, h⟩
    · simp [h]
    · rw [h]
      exact map_modify_of_fixed _ _ (fun x => by simp [applyUpdate_price, hf]) _ _
  · intro hf
    rcases updateListing_cases db id files title desc price category with
      ⟨_, h⟩ | ⟨idx, _, _, h⟩
    · simp [h]
    · rw [h]
      exact map_modify_of_fixed _ _ (fun x => by simp [applyUpdate_category, hf]) _ _
  · intro hf
    rcases updateListing_cases db id files title desc price category with
      ⟨_, h⟩ | ⟨idx, _, _, h⟩
    · simp [h]
    · rw [h]
      exact map_modify_of_fixed _ _ (fun x => by simp [applyUpdate_media, hf]) _ _
  · intro h1 h2 h3 h4 hf
    subst hf
    rcases updateListing_cases db id [] title desc price category with
      ⟨_, h⟩ | ⟨idx, _, _, h⟩
    · simp [h]
    · rw [h]
      have : applyUpdate [] title desc price category = fun l => l := by
        funext l
        exact applyUpdate_all_falsy _ _ _ _ l h1 h2 h3 h4
      have hid : db.listings.modify (fun l => l) idx = db.listings := List.modify_id idx _
      rw [this, hid]

/-! ## Not-found responses -/

/-- C8, counterexample. Deleting an id no stored listing has is answered with status 200 and
`ok: true`, not with 404. -/
theorem delete_missing_not_404 :
    (∀ l ∈ sampleDB.listings, stringToNumber "1700000000001" ≠ .fin (l.id : ℚ)) ∧
    (deleteListing sampleDB "1700000000001").2.status = 200 ∧
    (deleteListing sampleDB "1700000000001").2.status ≠ 404 ∧
    (deleteListing sampleDB "1700000000001").2.ok = true := by
  decide!

/-- C8, amended. User lookup, get-listing and update-listing answer 404 exactly when no stored
record has the addressed identifier, and leave the store unchanged in that case (lookup and get
never change it); delete always answers 200 with `ok: true` and leaves the store unchanged when
no listing has the id.  Addressed by its own studentId string, or by the decimal digits of its
own id, a stored record is found: the answer is 200. -/
theorem not_found_responses (db : DB) (studentId id : String) (files : List String)
    (title desc price category : JSVal) :
    (getUser db studentId).1 = db ∧
    ((getUser db studentId).2.status = 404 ↔ ∀ u ∈ db.users, u.studentId ≠ .str studentId) ∧
    (getListing db id).1 = db ∧
    ((getListing db id).2.status = 404 ↔ ∀ l ∈ db.listings, toString l.id ≠ id) ∧
    ((updateListing db id files title desc price category).2.status = 404 ↔
      ∀ l ∈ db.listings, stringToNumber id ≠ .fin (l.id : ℚ)) ∧
    ((updateListing db id files title desc price category).2.status = 404 →
      (updateListing db id files title desc price category).1 = db) ∧
    (deleteListing db id).2 = okResponse ∧
    (deleteListing db id).2.status = 200 ∧
    ((∀ l ∈ db.listings, stringToNumber id ≠ .fin (l.id : ℚ)) →
      (deleteListing db id).1 = db) ∧
    (∀ u ∈ db.users, ∀ s, u.studentId = .str s → (getUser db s).2.status = 200) ∧
    (∀ l ∈ db.listings, l.id < 2 ^ 53 → (getListing db (toString l.id)).2.status = 200) ∧
    (∀ l ∈ db.listings, l.id < 2 ^ 53 →
      (updateListing db (toString l.id) files title desc price category).2.status = 200) := by
  have hget : ∀ s, (getUser db s).2.status = 404 ↔ ∀ u ∈ db.users, u.studentId ≠ .str s := by
    intro s
    rcases find?_none_or_some (fun x : User => strictEq x.studentId (.str s)) db.users with
      ⟨hn, hall⟩ | ⟨y, hy, hmem, hp⟩
    · simp only [getUser, hn, failResponse, true_iff]
      intro u hu he
      have := hall u hu
      rw [(strictEq_str_iff _ _).2 he] at this
      cases this
    · simp only [getUser, hy, okResponse]
      constructor
      · intro h; cases h
      · intro hall
        exact absurd ((strictEq_str_iff _ _).1 hp) (hall y hmem)
  have hstatus : ∀ r : Response, r = okResponse ∨ r = failResponse 404 "Not found" →
      r.status ≠ 404 → r.status = 200 := by
    rintro r (rfl | rfl) h
    · rfl
    · exact absurd rfl h
  have hlist : ∀ i, (getListing db i).2.status = 404 ↔
      ∀ l ∈ db.listings, toString l.id ≠ i := by
    intro i
    rcases find?_none_or_some (fun l : Listing => decide (toString l.id = i)) db.listings with
      ⟨hn, hall⟩ | ⟨y, hy, hmem, hp⟩
    · simp only [getListing, hn, failResponse, true_iff]
      intro l hl
      simpa using hall l hl
    · simp only [getListing, hy, okResponse]
      constructor
      · intro h; cases h
      · intro hall
        exact absurd (by simpa using hp) (hall y hmem)
  have hupd : ∀ i, (updateListing db i files title desc price category).2.status = 404 ↔
      ∀ l ∈ db.listings, stringToNumber i ≠ .fin (l.id : ℚ) := by
    intro i
    rcases updateListing_cases db i files title desc price category with
      ⟨hn, h⟩ | ⟨idx, _, ⟨l, hl, he⟩, h⟩
    · simp only [h, failResponse, true_iff]
      exact hn
    · simp only [h, okResponse]
      constructor
      · intro h; cases h
      · intro hall
        exact absurd he (hall l hl)
  have hownUser : ∀ u ∈ db.users, ∀ s, u.studentId = .str s → (getUser db s).2.status = 200 := by
    intro u hu s hs
    refine hstatus _ ?_ (fun h => (hget s).1 h u hu hs)
    simp only [getUser]
    split <;> simp
  have hownGet : ∀ l ∈ db.listings, l.id < 2 ^ 53 →
      (getListing db (toString l.id)).2.status = 200 := by
    intro l hl _
    refine hstatus _ ?_ (fun h => (hlist _).1 h l hl rfl)
    simp only [getListing]
    split <;> simp
  have hownUpdate : ∀ l ∈ db.listings, l.id < 2 ^ 53 →
      (updateListing db (toString l.id) files title desc price category).2.status = 200 := by
    intro l hl hb
    refine hstatus _ ?_ (fun h => (hupd _).1 h l hl (stringToNumber_toString l.id hb))
    simp only [updateListing]
    split <;> simp
  refine ⟨?_, hget studentId, ?_, hlist id, hupd id, ?_, rfl, rfl, ?_, hownUser, hownGet,
    hownUpdate⟩
  · simp only [getUser]
    split <;> rfl
  · simp only [getListing]
    split <;> rfl
  · rcases updateListing_cases db id files title desc price category with
      ⟨hn, h⟩ | ⟨idx, _, _, h⟩
    · simp [h]
    · simp only [h, okResponse]
      intro h; cases h
  · intro hall
    rw [deleteListing_eq]
    have : db.listings.filter (fun l => decide (stringToNumber id ≠ .fin (l.id : ℚ))) =
        db.listings := by
      rw [List.filter_eq_self]
      intro l hl
      simpa using hall l hl
    rw [this]

/-! ## Stored prices -/

theorem mem_modify {α : Type} (f : α → α) :
    ∀ (l : List α) (n : Nat) (x : α), x ∈ l.modify f n → x ∈ l ∨ ∃ y ∈ l, x = f y := by
  intro l
  induction l with
  | nil => intro n x hx; simp at hx
  | cons a t ih =>
    intro n x hx
    cases n with
    | zero =>
      simp only [List.modify_zero_cons, List.mem_cons] at hx
      rcases hx with rfl | hx
      · exact Or.inr ⟨a, List.mem_cons_self _ _, rfl⟩
      · exact Or.inl (List.mem_cons_of_mem _ hx)
    | succ k =>
      simp only [List.modify_succ_cons, List.mem_cons] at hx
      rcases hx with rfl | hx
      · exact Or.inl (List.mem_cons_self _ _)
      · rcases ih k x hx with h | ⟨y, hy, rfl⟩
        · exact Or.inl (List.mem_cons_of_mem _ h)
        · exact Or.inr ⟨y, List.mem_cons_of_mem _ hy, rfl⟩

/-- A request that writes only prices satisfying `P` keeps every stored price in `P`. -/
theorem step_prices (P : JSVal → Prop) (db : DB) (r : Request)
    (hdb : ∀ l ∈ db.listings, P l.price) (hr : WritesPrice P r) :
    ∀ l ∈ (step db r).listings, P l.price := by
  cases r with
  | register newId name studentId password =>
    rcases register_cases db newId name studentId password with
      ⟨_, h⟩ | ⟨_, _, h⟩ | ⟨_, _, h⟩ <;> simpa [step, h] using hdb
  | login studentId password =>
    rcases login_cases db studentId password with ⟨_, h⟩ | ⟨_, h⟩ <;> simpa [step, h] using hdb
  | getUser studentId =>
    simp only [step, getUser]
    split <;> exact hdb
  | list cat search price => exact hdb
  | get id =>
    simp only [step, getListing]
    split <;> exact hdb
  | create now createdAt files title desc price category studentId =>
    simp only [step, createListing]
    split
    · exact hdb
    · intro l hl
      simp only [List.mem_cons] at hl
      rcases hl with rfl | hl
      · exact hr
      · exact hdb l hl
  | update id files title desc price category =>
    rcases updateListing_cases db id files title desc price category with
      ⟨_, h⟩ | ⟨idx, _, _, h⟩
    · simpa [step, h] using hdb
    · simp only [step, h]
      intro l hl
      rcases mem_modify _ _ _ _ hl with hl | ⟨y, hy, rfl⟩
      · exact hdb l hl
      · rw [applyUpdate_price]
        by_cases hp : truthy price = true
        · simpa [hp] using hr hp
        · simpa [hp] using hdb y hy
  | delete id =>
    simp only [step, deleteListing]
    intro l hl
    exact hdb l (List.mem_of_mem_filter hl)

theorem run_prices (P : JSVal → Prop) (rs : List Request) :
    ∀ db : DB, (∀ l ∈ db.listings, P l.price) → (∀ r ∈ rs, WritesPrice P r) →
      ∀ l ∈ (run db rs).listings, P l.price := by
  induction rs with
  | nil => intro db hdb _; exact hdb
  | cons r rs ih =>
    intro db hdb hrs
    exact ih (step db r) (step_prices P db r hdb (hrs r (List.mem_cons_self _ _)))
      (fun x hx => hrs x (List.mem_cons_of_mem _ hx))

theorem toJSON_null_or_num (n : JSNum) : n.toJSON = .null ∨ ∃ q : ℚ, n.toJSON = .num q := by
  cases n <;> simp [JSNum.toJSON]

theorem writes_null_or_num (r : Request) :
    WritesPrice (fun v => v = .null ∨ ∃ q : ℚ, v = .num q) r := by
  cases r <;> simp only [WritesPrice] <;> first | trivial | exact toJSON_null_or_num _ | skip
  intro _
  exact toJSON_null_or_num _

theorem toJSON_of_finiteNonNeg (n : JSNum) (h : n.finiteNonNeg = true) :
    ∃ q : ℚ, n.toJSON = .num q ∧ 0 ≤ q := by
  cases n with
  | fin q => exact ⟨q, rfl, by simpa [JSNum.finiteNonNeg] using h⟩
  | nan => simp [JSNum.finiteNonNeg] at h
  | posInf => simp [JSNum.finiteNonNeg] at h
  | negInf => simp [JSNum.finiteNonNeg] at h

theorem writes_nonNeg (r : Request) (h : suppliesNonNegPrice r = true) :
    WritesPrice (fun v => ∃ q : ℚ, v = .num q ∧ 0 ≤ q) r := by
  cases r with
  | create now createdAt files title desc price category studentId =>
    exact toJSON_of_finiteNonNeg _ h
  | update id files title desc price category =>
    intro hp
    simp only [suppliesNonNegPrice, hp, Bool.not_true, Bool.false_or] at h
    exact toJSON_of_finiteNonNeg _ h
  | _ => trivial

/-- C9, counterexample. A create request with the form field `price=-5` stores the price `-5`,
and an update request with `price=-5` writes `-5` over a stored price of 50. -/
theorem negative_price_stored :
    (run initDB [.create 1700000000000 "2023-11-14T22:13:20.000Z" [] (.str "Bike") .undefined
        (.str "-5") .undefined (.str "20481234")]).listings.map Listing.price = [.num (-5)] ∧
    (run initDB [.create 1700000000000 "2023-11-14T22:13:20.000Z" [] (.str "Bike") .undefined
        (.num 50) .undefined (.str "20481234"),
      .update "1700000000000" [] .undefined .undefined (.str "-5") .undefined]).listings.map
        Listing.price = [.num (-5)] ∧
    ¬ ((0 : ℚ) ≤ -5) := by
  decide!

/-- C9, amended. In every store reached from the initial empty store every listing's price is a
number or `null` (how the JSON file holds `NaN` and the infinities), and the value
`Number(price) || 0` stored by create is never `NaN`.  Every stored price is a number `>= 0` as
long as each create request supplied a price that `Number` converts to `NaN` or to a finite
number that is not negative, and each update request supplied a falsy price or one that
`Number` converts to a finite number that is not negative.  The price `"12.50"` meets that
condition; `"-5"` does not, and neither does `"1e400"`, which `Number` converts to `Infinity`
and the store holds as `null`. -/
theorem stored_prices (rs : List Request) :
    (∀ l ∈ (run initDB rs).listings, l.price = .null ∨ ∃ q : ℚ, l.price = .num q) ∧
    (∀ price : JSVal, (toNumber (withDefault price (.num 0))).orZero ≠ .nan) ∧
    ((∀ r ∈ rs, suppliesNonNegPrice r = true) →
      ∀ l ∈ (run initDB rs).listings, ∃ q : ℚ, l.price = .num q ∧ 0 ≤ q) ∧
    (∀ (now : Nat) (createdAt : String) (files : List String)
        (title desc category studentId : JSVal),
      suppliesNonNegPrice
        (.create now createdAt files title desc (.str "12.50") category studentId) = true ∧
      suppliesNonNegPrice
        (.create now createdAt files title desc (.str "-5") category studentId) = false ∧
      suppliesNonNegPrice
        (.create now createdAt files title desc (.str "1e400") category studentId) = false) ∧
    (toNumber (.str "1e400")).orZero.toJSON = .null ∧
    (toNumber (.str "abc")).toJSON = .null ∧
    (toNumber (.str "abc")).orZero.toJSON = .num 0 := by
  refine ⟨?_, ?_, ?_, ?_, by decide!, by decide!, by decide!⟩
  · exact run_prices _ rs initDB (by simp [initDB]) (fun r _ => writes_null_or_num r)
  · intro price
    unfold JSNum.orZero
    cases h : toNumber (withDefault price (.num 0)) <;> simp [JSNum.truthy]
    split <;> simp
  · intro hrs
    exact run_prices _ rs initDB (by simp [initDB]) (fun r hr => writes_nonNeg r (hrs r hr))
  · intro now createdAt files title desc category studentId
    have h1 : (toNumber (withDefault (.str "12.50") (.num 0))).orZero.finiteNonNeg = true := by
      decide!
    have h2 : (toNumber (withDefault (.str "-5") (.num 0))).orZero.finiteNonNeg = false := by
      decide!
    have h3 : (toNumber (withDefault (.str "1e400") (.num 0))).orZero.finiteNonNeg = false := by
      decide!
    exact ⟨h1, h2, h3⟩

/-- C9, amended, on a concrete sequence: a create with `price=12.50` followed by an update with
`price=0` (the number, which is not written) leaves the price `12.5`. -/
theorem stored_prices_witness :
    (∀ r ∈ [Request.create 1700000000000 "2023-11-14T22:13:20.000Z" [] (.str "Bike") .undefined
        (.str "12.50") .undefined (.str "20481234"),
      Request.update "1700000000000" [] .undefined .undefined (.num 0) .undefined],
        suppliesNonNegPrice r = true) ∧
    ∀ l ∈ (run initDB [Request.create 1700000000000 "2023-11-14T22:13:20.000Z" [] (.str "Bike")
        .undefined (.str "12.50") .undefined (.str "20481234"),
      Request.update "1700000000000" [] .undefined .undefined (.num 0) .undefined]).listings,
        ∃ q : ℚ, l.price = .num q ∧ 0 ≤ q :=
  ⟨by decide!, (stored_prices _).2.2.1 (by decide!)⟩

/-! ## Setting a price of zero -/

/-- C10, counterexample. The sample bike is stored with price 50; an update whose `price` field
is the string `"0"`, as a multipart or urlencoded form delivers it, finds the listing and leaves
it with price 0, and so does the string `"1e-400"`. -/
theorem update_sets_price_zero :
    sampleDB.listings.findIdx?
      (fun l => JSNum.strictEq (.fin l.id) (stringToNumber "1700000000000")) = some 0 ∧
    sampleDB.listings[0]?.map Listing.price = some (.num 50) ∧
    (updateListing sampleDB "1700000000000" [] .undefined .undefined (.str "0")
      .undefined).1.listings[0]?.map Listing.price = some (.num 0) ∧
    (updateListing sampleDB "1700000000000" [] .undefined .undefined (.str "0")
      .undefined).2.status = 200 ∧
    (updateListing sampleDB "1700000000000" [] .undefined .undefined (.str "1e-400")
      .undefined).1.listings[0]?.map Listing.price = some (.num 0) := by
  decide!

theorem toJSON_eq_zero_iff (n : JSNum) : n.toJSON = .num 0 ↔ n = .fin 0 := by
  cases n <;> simp [JSNum.toJSON]

/-- C10, amended. For a store holding a listing with the addressed id whose price is not 0:
after an update the listing's price is 0 exactly when the `price` field is truthy and `Number`
converts it to 0; a falsy `price` field (absent, `null`, `false`, the number 0, the empty
string) leaves the price as it was, hence not 0.  The strings `"0"` and `"1e-400"` are truthy
and `Number` converts both to 0. -/
theorem update_price_zero (db : DB) (id : String) (files : List String)
    (title desc price category : JSVal) (idx : Nat) (old : Listing)
    (hfound : db.listings.findIdx?
      (fun l => JSNum.strictEq (.fin l.id) (stringToNumber id)) = some idx)
    (hold : db.listings[idx]? = some old) (hne : old.price ≠ .num 0) :
    ∃ new : Listing,
      (updateListing db id files title desc price category).1.listings[idx]? = some new ∧
      (new.price = .num 0 ↔ truthy price = true ∧ toNumber price = .fin 0) ∧
      (truthy price = false → new.price = old.price ∧ new.price ≠ .num 0) ∧
      (truthy (.str "0") = true ∧ toNumber (.str "0") = .fin 0) ∧
      (truthy (.str "1e-400") = true ∧ toNumber (.str "1e-400") = .fin 0) := by
  refine ⟨applyUpdate files title desc price category old, ?_, ?_, ?_, by decide!, by decide!⟩
  · simp [updateListing, hfound, hold]
  · rw [applyUpdate_price]
    by_cases hp : truthy price = true
    · simp [hp, toJSON_eq_zero_iff]
    · simp [hp, hne]
  · intro hp
    rw [applyUpdate_price]
    simp [hp, hne]

/-- C10, amended, on the sample store: the number 0 as `price` leaves the bike at 50. -/
theorem update_price_zero_witness :
    sampleDB.listings.findIdx?
      (fun l => JSNum.strictEq (.fin l.id) (stringToNumber "1700000000000")) = some 0 ∧
    sampleDB.listings[0]? = some sampleBike ∧ sampleBike.price ≠ .num 0 ∧
    ∃ new : Listing,
      (updateListing sampleDB "1700000000000" [] (.str "Road bike") .undefined (.num 0)
        .undefined).1.listings[0]? = some new ∧
      (new.price = .num 0 ↔ truthy (.num 0) = true ∧ toNumber (.num 0) = .fin 0) ∧
      (truthy (.num 0) = false → new.price = sampleBike.price ∧ new.price ≠ .num 0) ∧
      (truthy (.str "0") = true ∧ toNumber (.str "0") = .fin 0) ∧
      (truthy (.str "1e-400") = true ∧ toNumber (.str "1e-400") = .fin 0) :=
  ⟨by decide!, rfl, by decide,
    update_price_zero sampleDB "1700000000000" [] (.str "Road bike") .undefined (.num 0)
      .undefined 0 sampleBike (by decide!) rfl (by decide)⟩

end Marketplace
